import Mathlib

/-!
Verification development for the netdrift forward proxy
(`cmd/proxy/main.go`).

The Go source is shallowly embedded as executable Lean definitions:

* Go strings are modelled as Lean `String`; all character-level work
  (prefix tests, splitting, byte encoding) is done on `List Char`, one
  `Char` per byte, which is exact for the ASCII data (URLs, headers,
  base64 alphabets) these code paths manipulate.
* Go `int`/`int64` counters that are only ever incremented or reset to
  zero are modelled as `Nat`; values that can also be decremented or
  compared with configured thresholds (`CurrentRequests`,
  `CurrentConnections`, `FailureThreshold`, `RecoveryThreshold`) are
  modelled as `Int`.  The float64 `AvgLatency` field is modelled as `Rat`.
* Go maps keyed by upstream URL are modelled as association lists with
  first-match lookup; a fresh key is appended, which matches map
  semantics because lookup is key-based.
* `time.Time` values are modelled as `Nat` millisecond ticks, and each
  network interaction of `handleConnect` reads its outcome from a
  `ConnectEnv` record describing one request's external world.
-/

set_option linter.unusedVariables false

deriving instance DecidableEq for Except

namespace Netdrift

/-- Association-list analogue of Go map read `m[k]` (first match wins). -/
def mapLookup {β : Type} : List (String × β) → String → Option β
  | [], _ => none
  | (k, v) :: rest, key => if k = key then some v else mapLookup rest key

/-- Update the value stored under `key`, leaving other keys untouched. -/
def mapUpdate {β : Type} (m : List (String × β)) (key : String) (f : β → β) :
    List (String × β) :=
  m.map (fun entry => if entry.1 = key then (entry.1, f entry.2) else entry)

/-- Association-list analogue of Go map write `m[k] = v`. -/
def mapSet {β : Type} (m : List (String × β)) (key : String) (v : β) :
    List (String × β) :=
  if (mapLookup m key).isSome then mapUpdate m key (fun _ => v) else m ++ [(key, v)]

/-- Go `strings.Contains`: does `pat` occur as a contiguous run in the list? -/
def hasSeq (pat : List Char) : List Char → Bool
  | [] => pat.isEmpty
  | c :: rest => pat.isPrefixOf (c :: rest) || hasSeq pat rest

/-- Go `strings.TrimPrefix`: drop `pre` if it is a prefix, else no-op. -/
def dropLeading (pre l : List Char) : List Char :=
  if pre.isPrefixOf l then l.drop pre.length else l

/-- Go `strings.ReplaceAll(s, "%40", "@")`: left-to-right, non-overlapping. -/
def replace40 : List Char → List Char
  | '%' :: '4' :: '0' :: rest => '@' :: replace40 rest
  | c :: rest => c :: replace40 rest
  | [] => []

/-- Go `strings.SplitN(s, sep, 2)` when `sep` occurs: the two pieces around
the first occurrence; `none` when `sep` is absent. -/
def splitFirst (sep : Char) : List Char → Option (List Char × List Char)
  | [] => none
  | c :: rest =>
    if c = sep then some ([], rest)
    else
      match splitFirst sep rest with
      | some (a, b) => some (c :: a, b)
      | none => none

/-- Standard base64 alphabet used by Go `encoding/base64.StdEncoding`. -/
def base64Alphabet : List Char :=
  "ABCDEFGHIJKLMNOPQRSTUVWXYZabcdefghijklmnopqrstuvwxyz0123456789+/".toList

def b64Char (n : Nat) : Char := base64Alphabet.getD n 'A'

/-- RFC 4648 base64 of a byte list, with `=` padding, as Go
`base64.StdEncoding.EncodeToString`. -/
def base64EncodeBytes : List Nat → List Char
  | [] => []
  | [b1] => [b64Char (b1 / 4), b64Char (b1 % 4 * 16), '=', '=']
  | [b1, b2] => [b64Char (b1 / 4), b64Char (b1 % 4 * 16 + b2 / 16), b64Char (b2 % 16 * 4), '=']
  | b1 :: b2 :: b3 :: rest =>
    b64Char (b1 / 4) :: b64Char (b1 % 4 * 16 + b2 / 16) ::
      b64Char (b2 % 16 * 4 + b3 / 64) :: b64Char (b3 % 64) :: base64EncodeBytes rest

/-- Base64 of an ASCII string viewed as its byte list. -/
def base64Encode (s : List Char) : List Char :=
  base64EncodeBytes (s.map Char.toNat)

def b64Value (c : Char) : Option Nat :=
  ((base64Alphabet.zip (List.range 64)).find? (fun p => p.1 = c)).map (·.2)

/-- Base64 decoding of padded groups of four, as Go
`base64.StdEncoding.DecodeString` (which ignores CR and LF). -/
def base64DecodeGroups : List Char → Option (List Nat)
  | [] => some []
  | c1 :: c2 :: c3 :: c4 :: rest =>
    match b64Value c1, b64Value c2 with
    | some a, some b =>
      if c3 = '=' then
        if c4 = '=' && rest.isEmpty then some [a * 4 + b / 16] else none
      else
        match b64Value c3 with
        | some c =>
          if c4 = '=' then
            if rest.isEmpty then some [a * 4 + b / 16, b % 16 * 16 + c / 4] else none
          else
            match b64Value c4 with
            | some d =>
              (base64DecodeGroups rest).map
                (fun tail => (a * 4 + b / 16) :: (b % 16 * 16 + c / 4) :: (c % 4 * 64 + d) :: tail)
            | none => none
        | none => none
    | _, _ => none
  | _ => none

def base64Decode (s : List Char) : Option (List Char) :=
  (base64DecodeGroups (s.filter (fun c => c ≠ '\r' && c ≠ '\n'))).map
    (fun bytes => bytes.map Char.ofNat)

/-- One entry of the `upstream_proxies` configuration array. -/
structure UpstreamProxyConfig where
  url : String
  enabled : Bool
  weight : Int
  tag : String
  note : String
  deriving Repr, DecidableEq

structure UserConfig where
  username : String
  password : String
  deriving Repr, DecidableEq

structure ServerConfig where
  name : String
  listenAddress : String
  statsEndpoint : String
  deriving Repr, DecidableEq

structure AuthConfig where
  enabled : Bool
  users : List UserConfig
  deriving Repr, DecidableEq

/-- The parsed configuration file (`Config` in the source). -/
structure Config where
  server : ServerConfig
  authentication : AuthConfig
  upstreamProxies : List UpstreamProxyConfig
  upstreamTimeout : Int
  deriving Repr, DecidableEq

/-- `WeightedUpstream` from the source.  `buildUpstreamLists` normalises
negative configured weights to 1, so the live weight is a `Nat`. -/
structure WeightedUpstream where
  url : String
  weight : Nat
  tag : String
  deriving Repr, DecidableEq

/-- `UpstreamHealth` from the source. -/
structure UpstreamHealth where
  tag : String
  failureCount : Nat
  successCount : Nat
  lastFailure : Nat
  lastSuccess : Nat
  isHealthy : Bool
  failureThreshold : Int
  recoveryThreshold : Int
  deriving Repr, DecidableEq

/-- `UpstreamStats` from the source. -/
structure UpstreamStats where
  url : String
  tag : String
  index : Nat
  totalRequests : Nat
  successRequests : Nat
  failedRequests : Nat
  totalLatency : Nat
  avgLatency : Rat
  currentConnections : Int
  lastRequest : Nat
  deriving Repr, DecidableEq

/-- One element of `ps.stats.RecentRequests`. -/
structure RecentRequest where
  timestamp : Nat
  upstream : String
  latency : Nat
  success : Bool
  deriving Repr, DecidableEq

/-- The anonymous `stats` struct inside `ProxyServer`. -/
structure ServerStats where
  startTime : Nat
  totalRequests : Nat
  successRequests : Nat
  failedRequests : Nat
  currentRequests : Int
  maxConcurrency : Int
  upstreamMetrics : List (String × UpstreamStats)
  recentRequests : List RecentRequest
  deriving Repr, DecidableEq

/-- `ProxyServer` from the source (locks dropped: the embedding is the
sequential semantics of the locked critical sections). -/
structure ProxyServer where
  config : Config
  configModTime : Nat
  upstreams : List String
  weightedUpstreams : List WeightedUpstream
  totalWeight : Nat
  currentIdx : Nat
  upstreamHealth : List (String × UpstreamHealth)
  stats : ServerStats
  deriving Repr, DecidableEq

/-- Health record created by `buildUpstreamLists` for a new URL. -/
def defaultBuildHealth (tag : String) : UpstreamHealth :=
  { tag := tag, failureCount := 0, successCount := 0, lastFailure := 0,
    lastSuccess := 0, isHealthy := true, failureThreshold := 3, recoveryThreshold := 1 }

/-- Stats record created by `buildUpstreamLists` for a new URL. -/
def initialMetric (url tag : String) (now : Nat) : UpstreamStats :=
  { url := url, tag := tag, index := 0, totalRequests := 0, successRequests := 0,
    failedRequests := 0, totalLatency := 0, avgLatency := 0, currentConnections := 0,
    lastRequest := now }

/-- One iteration of the loop body of `buildUpstreamLists`. -/
def buildStep (now : Nat) (ps : ProxyServer) (upstream : UpstreamProxyConfig) :
    ProxyServer :=
  if upstream.enabled then
    let weight := (if upstream.weight < 0 then 1 else upstream.weight).toNat
    let ps := { ps with
      upstreams := ps.upstreams ++ [upstream.url],
      weightedUpstreams := ps.weightedUpstreams ++
        [({ url := upstream.url, weight := weight, tag := upstream.tag } : WeightedUpstream)],
      totalWeight := ps.totalWeight + weight }
    let ps :=
      match mapLookup ps.upstreamHealth upstream.url with
      | none =>
        { ps with upstreamHealth :=
            ps.upstreamHealth ++ [(upstream.url, defaultBuildHealth upstream.tag)] }
      | some _ =>
        { ps with upstreamHealth :=
            mapUpdate ps.upstreamHealth upstream.url (fun h => { h with tag := upstream.tag }) }
    match mapLookup ps.stats.upstreamMetrics upstream.url with
    | none =>
      { ps with stats.upstreamMetrics :=
          ps.stats.upstreamMetrics ++ [(upstream.url, initialMetric upstream.url upstream.tag now)] }
    | some _ =>
      { ps with stats.upstreamMetrics :=
          mapUpdate ps.stats.upstreamMetrics upstream.url (fun m => { m with tag := upstream.tag }) }
  else ps

/-- `buildUpstreamLists`: reset the selectable lists, then fold the
configured upstream entries. -/
def buildUpstreamLists (ps : ProxyServer) (now : Nat) : ProxyServer :=
  ps.config.upstreamProxies.foldl (buildStep now)
    { ps with upstreams := [], weightedUpstreams := [], totalWeight := 0 }

def initialServerStats (now : Nat) : ServerStats :=
  { startTime := now, totalRequests := 0, successRequests := 0, failedRequests := 0,
    currentRequests := 0, maxConcurrency := 0, upstreamMetrics := [], recentRequests := [] }

/-- `NewProxyServer` (logging elided). -/
def newProxyServer (config : Config) (configModTime : Nat) (now : Nat) : ProxyServer :=
  buildUpstreamLists
    { config := config, configModTime := configModTime, upstreams := [],
      weightedUpstreams := [], totalWeight := 0, currentIdx := 0, upstreamHealth := [],
      stats := initialServerStats now } now

/-- `reloadConfig`.  `statResult` is the mtime read from `os.Stat` (`none`
on stat error); `parsed` is the result of re-reading the file (`none` on
parse failure). -/
def reloadConfig (ps : ProxyServer) (statResult : Option Nat) (parsed : Option Config)
    (now : Nat) : ProxyServer :=
  match statResult with
  | none => ps
  | some modTime =>
    if ¬ ps.configModTime < modTime then ps
    else
      match parsed with
      | none => ps
      | some newConfig =>
        let ps := { ps with config := newConfig, configModTime := modTime, currentIdx := 0 }
        buildUpstreamLists ps now

/-- URLs of the enabled entries of a configuration, in file order. -/
def enabledURLs (config : Config) : List String :=
  (config.upstreamProxies.filter (·.enabled)).map (·.url)

/-- `getHealthyUpstreams`: zero-weight entries are skipped, and an entry
qualifies only when its health record exists and is healthy. -/
def getHealthyUpstreams (ps : ProxyServer) : List WeightedUpstream :=
  ps.weightedUpstreams.filter (fun weighted =>
    if weighted.weight = 0 then false
    else
      match mapLookup ps.upstreamHealth weighted.url with
      | some health => health.isHealthy
      | none => false)

def weightSum (upstreams : List WeightedUpstream) : Nat :=
  (upstreams.map (·.weight)).sum

/-- Weight of the first `i` entries: the prefix sums walked by the
selection loop. -/
def partialSum (upstreams : List WeightedUpstream) (i : Nat) : Nat :=
  weightSum (upstreams.take i)

/-- The prefix-sum walk of `selectWeightedUpstream`: first entry whose
accumulated weight band strictly exceeds `target`. -/
def findByWeight (target acc : Nat) : List WeightedUpstream → Option String
  | [] => none
  | u :: rest =>
    if target < acc + u.weight then some u.url else findByWeight target (acc + u.weight) rest

/-- `selectWeightedUpstream`: returns the chosen URL and the new shared
cursor (`ps.currentIdx`).  A singleton candidate list short-circuits
before the cursor is touched. -/
def selectWeightedUpstream (currentIdx : Nat) (upstreams : List WeightedUpstream) :
    String × Nat :=
  match upstreams with
  | [] => ("", currentIdx)
  | [u] => (u.url, currentIdx)
  | u1 :: u2 :: rest =>
    let totalWeight := weightSum (u1 :: u2 :: rest)
    if totalWeight = 0 then (u1.url, currentIdx)
    else
      let newIdx := (currentIdx + 1) % totalWeight
      match findByWeight newIdx 0 (u1 :: u2 :: rest) with
      | some url => (url, newIdx)
      | none => (u1.url, newIdx)

/-- `getLeastFailedUpstream`: minimum failure count over all registered
(enabled) upstreams, ties and record-less entries keeping the earlier
candidate; starts from `upstreams[0]` and the sentinel 999999. -/
def getLeastFailedUpstream (ps : ProxyServer) : String :=
  match ps.upstreams with
  | [] => ""
  | first :: _ =>
    (ps.upstreams.foldl
      (fun best upstream =>
        match mapLookup ps.upstreamHealth upstream with
        | some health =>
          if (health.failureCount : Int) < best.2 then (upstream, (health.failureCount : Int))
          else best
        | none => best)
      (first, (999999 : Int))).1

/-- `getNextUpstream`: healthy weighted round-robin with least-failed
fallback.  Returns the URL and the new shared cursor. -/
def getNextUpstream (ps : ProxyServer) : String × Nat :=
  if ps.weightedUpstreams.isEmpty then ("", ps.currentIdx)
  else
    let healthy := getHealthyUpstreams ps
    if healthy.isEmpty then (getLeastFailedUpstream ps, ps.currentIdx)
    else selectWeightedUpstream ps.currentIdx healthy

/-- Iterated selection over a fixed candidate list, collecting the chosen
URLs while threading the cursor. -/
def runSelections (upstreams : List WeightedUpstream) : Nat → Nat → List String
  | _, 0 => []
  | c, n + 1 =>
    (selectWeightedUpstream c upstreams).1 ::
      runSelections upstreams (selectWeightedUpstream c upstreams).2 n

/-- Health record created by `recordUpstreamFailure` for an unknown URL. -/
def recordFailureDefault : UpstreamHealth :=
  { tag := "", failureCount := 0, successCount := 0, lastFailure := 0, lastSuccess := 0,
    isHealthy := true, failureThreshold := 3, recoveryThreshold := 1 }

/-- Health record created by `recordUpstreamSuccess` for an unknown URL. -/
def recordSuccessDefault : UpstreamHealth :=
  { tag := "", failureCount := 0, successCount := 0, lastFailure := 0, lastSuccess := 0,
    isHealthy := true, failureThreshold := 30, recoveryThreshold := 3 }

/-- `recordUpstreamFailure`. -/
def recordUpstreamFailure (ps : ProxyServer) (upstream : String) (now : Nat) : ProxyServer :=
  let health := (mapLookup ps.upstreamHealth upstream).getD recordFailureDefault
  let health := { health with failureCount := health.failureCount + 1, lastFailure := now }
  let health :=
    if (health.failureCount : Int) ≥ health.failureThreshold then { health with isHealthy := false }
    else health
  { ps with upstreamHealth := mapSet ps.upstreamHealth upstream health }

/-- `recordUpstreamSuccess`. -/
def recordUpstreamSuccess (ps : ProxyServer) (upstream : String) (now : Nat) : ProxyServer :=
  let health := (mapLookup ps.upstreamHealth upstream).getD recordSuccessDefault
  let health := { health with successCount := health.successCount + 1, lastSuccess := now }
  let health :=
    if !health.isHealthy then { health with failureCount := 0, isHealthy := true }
    else health
  { ps with upstreamHealth := mapSet ps.upstreamHealth upstream health }

/-- `n` consecutive `recordUpstreamFailure` calls with no interleaved
success. -/
def recordFailures (ps : ProxyServer) (upstream : String) (now : Nat) : Nat → ProxyServer
  | 0 => ps
  | n + 1 => recordUpstreamFailure (recordFailures ps upstream now n) upstream now

/-- `parseUpstreamAuth`: scheme check, credential split on `@`,
percent-decoding of `%40`, and the precomputed `Basic` header. -/
def parseUpstreamAuth (upstreamURL : String) : Except String (String × String) :=
  let l := upstreamURL.toList
  if !("http://".toList.isPrefixOf l) && !("https://".toList.isPrefixOf l) then
    Except.error "invalid URL scheme"
  else
    let urlPart := dropLeading "https://".toList (dropLeading "http://".toList l)
    if '@' ∈ urlPart then
      let parts := urlPart.splitOn '@'
      if parts.length ≠ 2 then Except.error "invalid URL format"
      else
        let authPart := parts.getD 0 []
        let host := parts.getD 1 []
        let authPart := if hasSeq "%40".toList authPart then replace40 authPart else authPart
        Except.ok (host.asString, ("Basic ".toList ++ base64Encode authPart).asString)
    else
      Except.ok (urlPart.asString, "")

/-- The CONNECT request bytes sent to the selected upstream
(`handleConnect`, construction of `connectReq`). -/
def buildConnectReq (host auth : String) : String :=
  if auth ≠ "" then
    "CONNECT " ++ host ++ " HTTP/1.1\r\nHost: " ++ host ++
      "\r\nProxy-Authorization: " ++ auth ++ "\r\n\r\n"
  else
    "CONNECT " ++ host ++ " HTTP/1.1\r\nHost: " ++ host ++ "\r\n\r\n"

/-- `authenticate`: client `Proxy-Authorization` check for CONNECT. -/
def authenticate (config : Config) (proxyAuth : String) : Bool :=
  if !config.authentication.enabled then true
  else if proxyAuth = "" then false
  else if !("Basic ".toList.isPrefixOf proxyAuth.toList) then false
  else
    match base64Decode (proxyAuth.toList.drop 6) with
    | none => false
    | some decoded =>
      match splitFirst ':' decoded with
      | none => false
      | some (username, password) =>
        config.authentication.users.any (fun user =>
          user.username == username.asString && user.password == password.asString)

/-- External outcomes of one CONNECT request: header sent by the client,
target host, and the success or failure of each network interaction of
the pipeline. -/
structure ConnectEnv where
  now : Nat
  host : String
  proxyAuth : String
  dialOk : Bool
  writeOk : Bool
  readResult : Option String
  hijackSupported : Bool
  hijackOk : Bool
  clientWriteOk : Bool
  elapsed : Nat
  deriving Repr, DecidableEq

def updateMetric (ps : ProxyServer) (url : String) (f : UpstreamStats → UpstreamStats) :
    ProxyServer :=
  { ps with stats.upstreamMetrics := mapUpdate ps.stats.upstreamMetrics url f }

/-- Failure accounting shared by the upstream-phase error paths: one
global and one per-upstream failed-request increment. -/
def failBoth (ps : ProxyServer) (upstream : String) : ProxyServer :=
  updateMetric { ps with stats.failedRequests := ps.stats.failedRequests + 1 } upstream
    (fun m => { m with failedRequests := m.failedRequests + 1 })

def fifteenMinutesMs : Nat := 15 * 60 * 1000

/-- The recent-request pruning loop: keep from the first record newer than
the cutoff on; when no record is newer the slice is left unchanged. -/
def trimRecent (cutoff : Nat) (l : List RecentRequest) : List RecentRequest :=
  match l.findIdx? (fun req => cutoff < req.timestamp) with
  | some i => l.drop i
  | none => l

/-- Success accounting of `handleConnect` after the tunnel is
established.  `TotalLatency` is incremented twice, exactly as in the
source (the duplicated `atomic.AddInt64` at lines 936-937). -/
def connectSuccess (ps : ProxyServer) (upstream : String) (env : ConnectEnv) : ProxyServer :=
  let ps := { ps with stats.successRequests := ps.stats.successRequests + 1 }
  let ps := updateMetric ps upstream (fun m =>
    { m with successRequests := m.successRequests + 1 })
  let elapsed := env.elapsed
  let ps := updateMetric ps upstream (fun m =>
    { m with totalLatency := m.totalLatency + elapsed })
  let ps := updateMetric ps upstream (fun m =>
    { m with totalLatency := m.totalLatency + elapsed })
  let endNow := env.now + env.elapsed
  let ps := updateMetric ps upstream (fun m =>
    { m with lastRequest := endNow,
             avgLatency := (m.totalLatency : Rat) / (m.successRequests : Rat) })
  let ps := { ps with stats.recentRequests := ps.stats.recentRequests ++
    [({ timestamp := endNow, upstream := upstream, latency := elapsed,
        success := true } : RecentRequest)] }
  { ps with stats.recentRequests :=
      trimRecent (endNow - fifteenMinutesMs) ps.stats.recentRequests }

/-- Steps 5-10 of the pipeline, from URL parsing to tunnel
establishment; second component is the HTTP status answered to the
client (0 when the connection is already hijacked). -/
def handleConnectUpstreamPhase (ps : ProxyServer) (env : ConnectEnv) (upstream : String) :
    ProxyServer × Nat :=
  match parseUpstreamAuth upstream with
  | Except.error _ => (failBoth ps upstream, 502)
  | Except.ok hostAuth =>
    if !env.dialOk then (failBoth ps upstream, 502)
    else
      let connectReq := buildConnectReq env.host hostAuth.2
      if !env.writeOk then (failBoth ps upstream, 502)
      else
        match env.readResult with
        | none => (failBoth ps upstream, 502)
        | some responseStr =>
          if !(hasSeq "200".toList responseStr.toList) then (failBoth ps upstream, 502)
          else if !env.hijackSupported then (failBoth ps upstream, 500)
          else if !env.hijackOk then (failBoth ps upstream, 500)
          else if !env.clientWriteOk then (failBoth ps upstream, 0)
          else (connectSuccess ps upstream env, 200)

/-- `handleConnect`: accounting, authentication, selection, upstream
phase, and the deferred decrements. -/
def handleConnect (ps : ProxyServer) (env : ConnectEnv) : ProxyServer × Nat :=
  let startCur := ps.stats.currentRequests + 1
  let ps := { ps with stats.currentRequests := startCur,
                      stats.maxConcurrency := max ps.stats.maxConcurrency startCur }
  let ps := { ps with stats.totalRequests := ps.stats.totalRequests + 1 }
  let result :=
    if !authenticate ps.config env.proxyAuth then
      ({ ps with stats.failedRequests := ps.stats.failedRequests + 1 }, 407)
    else
      let sel := getNextUpstream ps
      let ps := { ps with currentIdx := sel.2 }
      if sel.1 = "" then
        ({ ps with stats.failedRequests := ps.stats.failedRequests + 1 }, 502)
      else
        let ps := updateMetric ps sel.1 (fun m =>
          { m with totalRequests := m.totalRequests + 1,
                   currentConnections := m.currentConnections + 1 })
        let inner := handleConnectUpstreamPhase ps env sel.1
        (updateMetric inner.1 sel.1 (fun m =>
          { m with currentConnections := m.currentConnections - 1 }), inner.2)
  ({ result.1 with stats.currentRequests := result.1.stats.currentRequests - 1 }, result.2)

/-- Sequential processing of a series of CONNECT requests. -/
def processRequests (ps : ProxyServer) (envs : List ConnectEnv) : ProxyServer :=
  envs.foldl (fun s e => (handleConnect s e).1) ps

/-- Sum of the per-upstream `total_reqs` counters. -/
def sumUpstreamTotals (ps : ProxyServer) : Nat :=
  (ps.stats.upstreamMetrics.map (fun p => p.2.totalRequests)).sum

/-- The URL picked by the prefix-sum walk for a given cursor value, with
the source's fallback to the first candidate. -/
def pickByWeight (upstreams : List WeightedUpstream) (fallback : String) (t : Nat) : String :=
  match findByWeight t 0 upstreams with
  | some url => url
  | none => fallback

/-- Total weight registered under a given URL. -/
def weightOf (s : String) (upstreams : List WeightedUpstream) : Nat :=
  ((upstreams.filter (fun v => v.url = s)).map (·.weight)).sum

/-- Relation between the state after and before one request-path step:
the registry, health and configuration are untouched, per-upstream keys
are stable, the global total is untouched, exactly `delta` is added to
success + failed, and the per-upstream total sum is untouched. -/
def FrameStep (a b : ProxyServer) (delta dsum : Nat) : Prop :=
  a.config = b.config ∧ a.configModTime = b.configModTime ∧ a.upstreams = b.upstreams ∧
  a.weightedUpstreams = b.weightedUpstreams ∧ a.currentIdx = b.currentIdx ∧
  a.upstreamHealth = b.upstreamHealth ∧
  a.stats.totalRequests = b.stats.totalRequests ∧
  a.stats.successRequests + a.stats.failedRequests =
    b.stats.successRequests + b.stats.failedRequests + delta ∧
  (a.stats.upstreamMetrics.map (·.1)) = (b.stats.upstreamMetrics.map (·.1)) ∧
  sumUpstreamTotals a = sumUpstreamTotals b + dsum

/- Concrete instances used to evaluate the code on specific inputs. -/

/-- Registry a(weight 0) + b(weight 1), no authentication. -/
def zeroWeightConfig : Config :=
  { server := { name := "s", listenAddress := "l", statsEndpoint := "/stats" },
    authentication := { enabled := false, users := [] },
    upstreamProxies :=
      [{ url := "http://a:1", enabled := true, weight := 0, tag := "", note := "" },
       { url := "http://b:1", enabled := true, weight := 1, tag := "", note := "" }],
    upstreamTimeout := 0 }

/-- zeroWeightConfig after b's three failures: b unhealthy, a zero-weight. -/
def zeroWeightState : ProxyServer :=
  recordFailures (newProxyServer zeroWeightConfig 0 0) "http://b:1" 0 3

/-- A single enabled upstream of weight 1, no authentication. -/
def oneUpstreamConfig : Config :=
  { server := { name := "s", listenAddress := "l", statsEndpoint := "/stats" },
    authentication := { enabled := false, users := [] },
    upstreamProxies :=
      [{ url := "http://a:1", enabled := true, weight := 1, tag := "", note := "" }],
    upstreamTimeout := 0 }

def oneUpstreamState : ProxyServer := newProxyServer oneUpstreamConfig 0 0

/-- oneUpstreamConfig with client authentication enabled but no users, so
every CONNECT fails authentication. -/
def authNoUsersConfig : Config :=
  { server := { name := "s", listenAddress := "l", statsEndpoint := "/stats" },
    authentication := { enabled := true, users := [] },
    upstreamProxies :=
      [{ url := "http://a:1", enabled := true, weight := 1, tag := "", note := "" }],
    upstreamTimeout := 0 }

def authNoUsersState : ProxyServer := newProxyServer authNoUsersConfig 0 0

/-- A request whose every external interaction succeeds in 100 ms. -/
def envEstablished : ConnectEnv :=
  { now := 0, host := "example.com:443", proxyAuth := "", dialOk := true, writeOk := true,
    readResult := some "HTTP/1.1 200 Connection Established", hijackSupported := true,
    hijackOk := true, clientWriteOk := true, elapsed := 100 }

/-- A request whose upstream dial fails. -/
def envDialFail : ConnectEnv :=
  { envEstablished with dialOk := false }

/-- A request whose upstream answers a non-200 status line. -/
def envUpstream403 : ConnectEnv :=
  { envEstablished with readResult := some "HTTP/1.1 403 Forbidden" }

/-- oneUpstreamState with failure count 2 on its (threshold 3, healthy)
upstream: two recorded failures, no success. -/
def twoFailuresState : ProxyServer :=
  recordFailures oneUpstreamState "http://a:1" 0 2

/-- Registry a + b, used as the pre-reload state of the reload scenario. -/
def reloadOldConfig : Config :=
  { server := { name := "s", listenAddress := "l", statsEndpoint := "/stats" },
    authentication := { enabled := false, users := [] },
    upstreamProxies :=
      [{ url := "http://a:1", enabled := true, weight := 1, tag := "", note := "" },
       { url := "http://b:1", enabled := true, weight := 1, tag := "", note := "" }],
    upstreamTimeout := 0 }

/-- Registry a + c: b removed, c added. -/
def reloadNewConfig : Config :=
  { server := { name := "s", listenAddress := "l", statsEndpoint := "/stats" },
    authentication := { enabled := false, users := [] },
    upstreamProxies :=
      [{ url := "http://a:1", enabled := true, weight := 1, tag := "", note := "" },
       { url := "http://c:1", enabled := true, weight := 1, tag := "", note := "" }],
    upstreamTimeout := 0 }

/-- Pre-reload state carrying live counters: two failed requests (one per
upstream) and one recorded health failure on a. -/
def reloadOldState : ProxyServer :=
  recordUpstreamFailure
    (processRequests (newProxyServer reloadOldConfig 0 0) [envDialFail, envDialFail])
    "http://a:1" 0

end Netdrift

namespace Netdrift

/-! Association-list lemmas shared by the claim proofs. -/

theorem mapLookup_append_some {β : Type} {m : List (String × β)} {key : String} {v : β}
    (m₂ : List (String × β)) (h : mapLookup m key = some v) :
    mapLookup (m ++ m₂) key = some v := by
  induction m with
  | nil => simp [mapLookup] at h
  | cons e rest ih =>
    obtain ⟨k, w⟩ := e
    by_cases hk : k = key
    · simpa [mapLookup, hk] using h
    · simp only [mapLookup, hk, if_false, List.cons_append] at h ⊢
      exact ih h

theorem mapLookup_append_none {β : Type} {m : List (String × β)} {key : String}
    (m₂ : List (String × β)) (h : mapLookup m key = none) :
    mapLookup (m ++ m₂) key = mapLookup m₂ key := by
  induction m with
  | nil => simp
  | cons e rest ih =>
    obtain ⟨k, w⟩ := e
    by_cases hk : k = key
    · simp [mapLookup, hk] at h
    · simp only [mapLookup, hk, if_false, List.cons_append] at h ⊢
      exact ih h

@[simp] theorem mapLookup_nil {β : Type} (key : String) :
    mapLookup ([] : List (String × β)) key = none := rfl

@[simp] theorem mapLookup_cons {β : Type} (a : String) (b : β) (rest : List (String × β))
    (key : String) :
    mapLookup ((a, b) :: rest) key = if a = key then some b else mapLookup rest key := rfl

@[simp] theorem mapUpdate_nil {β : Type} (k : String) (f : β → β) :
    mapUpdate ([] : List (String × β)) k f = [] := rfl

@[simp] theorem mapUpdate_cons {β : Type} (a : String) (b : β) (rest : List (String × β))
    (k : String) (f : β → β) :
    mapUpdate ((a, b) :: rest) k f =
      (if a = k then (a, f b) else (a, b)) :: mapUpdate rest k f := by
  by_cases hak : a = k <;> simp [mapUpdate, hak]

theorem mapLookup_mapUpdate {β : Type} (m : List (String × β)) (k : String) (f : β → β)
    (key : String) :
    mapLookup (mapUpdate m k f) key =
      if key = k then (mapLookup m key).map f else mapLookup m key := by
  by_cases hkk : key = k
  · subst hkk
    simp only [if_pos rfl]
    induction m with
    | nil => simp
    | cons e rest ih =>
      obtain ⟨a, b⟩ := e
      rw [mapUpdate_cons]
      by_cases hak : a = key
      · subst hak; simp
      · simp [hak, ih]
  · simp only [if_neg hkk]
    induction m with
    | nil => simp
    | cons e rest ih =>
      obtain ⟨a, b⟩ := e
      rw [mapUpdate_cons]
      by_cases hak : a = k
      · have hakey : ¬ k = key := fun hh => hkk hh.symm
        simp [hak, hakey, ih]
      · by_cases hakey : a = key
        · simp [hak, hakey, hkk]
        · simp [hak, hakey, ih]

theorem mapLookup_mapSet_self {β : Type} (m : List (String × β)) (k : String) (v : β) :
    mapLookup (mapSet m k v) k = some v := by
  unfold mapSet
  cases hm : mapLookup m k with
  | none =>
    simp only [hm, Option.isSome_none, Bool.false_eq_true, if_false]
    rw [mapLookup_append_none _ hm]
    simp
  | some w =>
    simp only [hm, Option.isSome_some, if_true]
    rw [mapLookup_mapUpdate]
    simp [hm]

theorem mapLookup_mapSet_other {β : Type} (m : List (String × β)) (k key : String) (v : β)
    (h : key ≠ k) : mapLookup (mapSet m k v) key = mapLookup m key := by
  unfold mapSet
  cases hm : mapLookup m k with
  | none =>
    simp only [hm, Option.isSome_none, Bool.false_eq_true, if_false]
    cases hkey : mapLookup m key with
    | none =>
      rw [mapLookup_append_none _ hkey]
      have hk : ¬ k = key := fun he => h he.symm
      simp [hk]
    | some w => rw [mapLookup_append_some _ hkey]
  | some w =>
    simp only [hm, Option.isSome_some, if_true]
    rw [mapLookup_mapUpdate]
    simp [h]

theorem keys_mapUpdate {β : Type} (m : List (String × β)) (k : String) (f : β → β) :
    (mapUpdate m k f).map (·.1) = m.map (·.1) := by
  induction m with
  | nil => rfl
  | cons e rest ih =>
    obtain ⟨a, b⟩ := e
    by_cases hak : a = k <;> simp [mapUpdate, hak] at ih ⊢ <;> simpa [mapUpdate] using ih

/-- C2.  The claim says no selection ever returns a weight-0 or disabled
upstream, on the healthy path and on the least-failed fallback alike.  The
code violates the weight-0 half on the fallback path: with a(weight 0)
registered and b(weight 1) unhealthy, `getNextUpstream` falls back to the
least-failed upstream and returns a, whose registered weight is 0. -/
theorem c2_fallback_returns_zero_weight :
    (getNextUpstream zeroWeightState).1 = "http://a:1" ∧
    ({ url := "http://a:1", weight := 0, tag := "" } : WeightedUpstream) ∈
      zeroWeightState.weightedUpstreams ∧
    (∀ w ∈ zeroWeightState.weightedUpstreams, w.url = "http://a:1" → w.weight = 0) := by
  decide

/-- C4.  The success path of `handleConnect` adds the elapsed time to the
upstream's `TotalLatency` twice (duplicated increment in the source), so
one established tunnel with elapsed 100 ms leaves `total_latency_ms` at
200, not 100 as the claim requires. -/
theorem c4_latency_double_increment :
    (handleConnect oneUpstreamState envEstablished).2 = 200 ∧
    envEstablished.elapsed = 100 ∧
    ((mapLookup (handleConnect oneUpstreamState envEstablished).1.stats.upstreamMetrics
        "http://a:1").map (fun m => (m.totalLatency, m.successRequests))) = some (200, 1) := by
  decide

/-- C10.  A `recordUpstreamSuccess` on a URL with no health entry creates
it with failure threshold 30 and recovery threshold 3, while a
`recordUpstreamFailure` on such a URL creates it with thresholds 3 and 1,
so the thresholds depend on which event is observed first. -/
theorem c10_default_thresholds_by_first_event (ps : ProxyServer) (url : String) (now : Nat)
    (h : mapLookup ps.upstreamHealth url = none) :
    ((mapLookup (recordUpstreamSuccess ps url now).upstreamHealth url).map
        (fun hh => (hh.failureThreshold, hh.recoveryThreshold))) = some (30, 3) ∧
    ((mapLookup (recordUpstreamFailure ps url now).upstreamHealth url).map
        (fun hh => (hh.failureThreshold, hh.recoveryThreshold))) = some (3, 1) := by
  constructor
  · unfold recordUpstreamSuccess
    rw [h]
    simp [recordSuccessDefault, mapLookup_mapSet_self]
  · unfold recordUpstreamFailure
    rw [h]
    simp [recordFailureDefault, mapLookup_mapSet_self]

theorem c10_default_thresholds_by_first_event_witness :
    mapLookup oneUpstreamState.upstreamHealth "http://x" = none ∧
    (((mapLookup (recordUpstreamSuccess oneUpstreamState "http://x" 5).upstreamHealth
        "http://x").map (fun hh => (hh.failureThreshold, hh.recoveryThreshold))) = some (30, 3) ∧
    ((mapLookup (recordUpstreamFailure oneUpstreamState "http://x" 5).upstreamHealth
        "http://x").map (fun hh => (hh.failureThreshold, hh.recoveryThreshold))) = some (3, 1)) :=
  ⟨by decide, c10_default_thresholds_by_first_event oneUpstreamState "http://x" 5 (by decide)⟩

/-- C9.  When the healthy candidate list is a single upstream, selection
returns it via the singleton short-circuit of `selectWeightedUpstream`
and the shared cursor is left untouched. -/
theorem c9_single_candidate_cursor_frozen (ps : ProxyServer) (u : WeightedUpstream)
    (h : getHealthyUpstreams ps = [u]) :
    getNextUpstream ps = (u.url, ps.currentIdx) ∧ 0 < u.weight := by
  have hu : u ∈ getHealthyUpstreams ps := by rw [h]; exact List.mem_singleton_self u
  have hmem := List.mem_filter.mp hu
  have hw : 0 < u.weight := by
    rcases Nat.eq_zero_or_pos u.weight with h0 | h1
    · have := hmem.2
      simp [h0] at this
    · exact h1
  have hne : ps.weightedUpstreams ≠ [] := List.ne_nil_of_mem hmem.1
  refine ⟨?_, hw⟩
  unfold getNextUpstream
  have hempty : ps.weightedUpstreams.isEmpty = false := by
    cases hl : ps.weightedUpstreams with
    | nil => exact absurd hl hne
    | cons a l => rfl
  rw [hempty, h]
  rfl

theorem c9_single_candidate_cursor_frozen_witness :
    getHealthyUpstreams oneUpstreamState =
      [({ url := "http://a:1", weight := 1, tag := "" } : WeightedUpstream)] ∧
    getNextUpstream oneUpstreamState = ("http://a:1", oneUpstreamState.currentIdx) :=
  ⟨by decide,
    (c9_single_candidate_cursor_frozen oneUpstreamState
      { url := "http://a:1", weight := 1, tag := "" } (by decide)).1⟩

/-- C5 counterexample.  A request that fails client authentication
increments the global total but no per-upstream total, so after one such
request the per-upstream totals (0) do not sum to the global total (1). -/
theorem c5_counterexample :
    (processRequests authNoUsersState [envEstablished]).stats.totalRequests = 1 ∧
    ¬ (sumUpstreamTotals (processRequests authNoUsersState [envEstablished]) =
        (processRequests authNoUsersState [envEstablished]).stats.totalRequests) := by
  decide

end Netdrift

namespace Netdrift

/-- After `k ≤ T` consecutive failures on an entry that starts healthy
with failure count 0 and threshold `T`, the entry's count is `k` and it
is healthy exactly while `k < T`. -/
theorem recordFailures_fromZero (ps : ProxyServer) (url : String) (now : Nat)
    (h0 : UpstreamHealth) (T : Nat)
    (hl : mapLookup ps.upstreamHealth url = some h0)
    (hh : h0.isHealthy = true) (hc : h0.failureCount = 0)
    (hT : h0.failureThreshold = (T : Int)) (hT1 : 1 ≤ T) :
    ∀ k, k ≤ T →
      ∃ hk, mapLookup (recordFailures ps url now k).upstreamHealth url = some hk ∧
        hk.failureCount = k ∧ hk.failureThreshold = (T : Int) ∧
        hk.isHealthy = decide (k < T) := by
  intro k
  induction k with
  | zero =>
    intro _
    refine ⟨h0, hl, hc, hT, ?_⟩
    rw [hh]
    exact (decide_eq_true (by omega)).symm
  | succ k ih =>
    intro hk1
    obtain ⟨hk, hlk, hck, hTk, hhk⟩ := ih (by omega)
    show ∃ hx,
      mapLookup (recordUpstreamFailure (recordFailures ps url now k) url now).upstreamHealth
          url = some hx ∧ _
    unfold recordUpstreamFailure
    simp only [hlk, Option.getD_some]
    by_cases hflip : ((hk.failureCount + 1 : Nat) : Int) ≥ hk.failureThreshold
    · rw [if_pos hflip]
      refine ⟨_, mapLookup_mapSet_self _ _ _, by simp [hck], by simp [hTk], ?_⟩
      have hge : T ≤ k + 1 := by
        rw [hck, hTk] at hflip
        exact_mod_cast hflip
      simp only []
      exact (decide_eq_false (by omega)).symm
    · rw [if_neg hflip]
      refine ⟨_, mapLookup_mapSet_self _ _ _, by simp [hck], by simp [hTk], ?_⟩
      have hlt : k + 1 < T := by
        rw [hck, hTk] at hflip
        omega
      simp only []
      rw [hhk, decide_eq_true (show k < T by omega), decide_eq_true hlt]

/-- C3 counterexample.  A currently healthy upstream with threshold `T = 3`
and failure count already 2 flips to unhealthy on the very first
`record_failure` call, not after `T` calls, so the first `T - 1 = 2` calls
do not all leave it healthy. -/
theorem c3_counterexample :
    ((mapLookup twoFailuresState.upstreamHealth "http://a:1").map
        (fun h => (h.isHealthy, h.failureCount, h.failureThreshold))) = some (true, 2, 3) ∧
    ((mapLookup (recordFailures twoFailuresState "http://a:1" 0 1).upstreamHealth
        "http://a:1").map (·.isHealthy)) = some false := by
  decide

/-- C3 (amended: the upstream starts healthy with failure count 0).  With
threshold `T`, the first `T - 1` consecutive failures leave the upstream
healthy, the `T`-th flips it to unhealthy, and one success on any
unhealthy upstream restores health and resets the failure count to 0. -/
theorem c3_amended_thresholds (ps : ProxyServer) (url : String) (now : Nat)
    (h0 : UpstreamHealth) (T : Nat)
    (hl : mapLookup ps.upstreamHealth url = some h0)
    (hh : h0.isHealthy = true) (hc : h0.failureCount = 0)
    (hT : h0.failureThreshold = (T : Int)) (hT1 : 1 ≤ T) :
    (∀ k, k < T →
      ((mapLookup (recordFailures ps url now k).upstreamHealth url).map (·.isHealthy)) =
        some true) ∧
    ((mapLookup (recordFailures ps url now T).upstreamHealth url).map (·.isHealthy)) =
      some false ∧
    (∀ (ps₂ : ProxyServer) (url₂ : String) (now₂ : Nat) (h₂ : UpstreamHealth),
      mapLookup ps₂.upstreamHealth url₂ = some h₂ → h₂.isHealthy = false →
      ((mapLookup (recordUpstreamSuccess ps₂ url₂ now₂).upstreamHealth url₂).map
          (fun hh₂ => (hh₂.isHealthy, hh₂.failureCount))) = some (true, 0)) := by
  refine ⟨?_, ?_, ?_⟩
  · intro k hk
    obtain ⟨hkrec, hl2, _, _, hh2⟩ :=
      recordFailures_fromZero ps url now h0 T hl hh hc hT hT1 k (Nat.le_of_lt hk)
    rw [hl2]
    simp [hh2, decide_eq_true hk]
  · obtain ⟨hkrec, hl2, _, _, hh2⟩ :=
      recordFailures_fromZero ps url now h0 T hl hh hc hT hT1 T le_rfl
    rw [hl2]
    simp [hh2]
  · intro ps₂ url₂ now₂ h₂ hl₂ hunh
    unfold recordUpstreamSuccess
    simp only [hl₂, Option.getD_some, hunh]
    simp [mapLookup_mapSet_self]

theorem c3_amended_thresholds_witness :
    ((mapLookup (recordFailures oneUpstreamState "http://a:1" 0 2).upstreamHealth
        "http://a:1").map (·.isHealthy)) = some true ∧
    ((mapLookup (recordFailures oneUpstreamState "http://a:1" 0 3).upstreamHealth
        "http://a:1").map (·.isHealthy)) = some false ∧
    ((mapLookup (recordUpstreamSuccess zeroWeightState "http://b:1" 9).upstreamHealth
        "http://b:1").map (fun hh => (hh.isHealthy, hh.failureCount))) = some (true, 0) := by
  have hmain := c3_amended_thresholds oneUpstreamState "http://a:1" 0 (defaultBuildHealth "") 3
    (by decide) (by decide) (by decide) (by decide) (by decide)
  refine ⟨hmain.1 2 (by decide), hmain.2.1, ?_⟩
  exact hmain.2.2 zeroWeightState "http://b:1" 9
    { tag := "", failureCount := 3, successCount := 0, lastFailure := 0, lastSuccess := 0,
      isHealthy := false, failureThreshold := 3, recoveryThreshold := 1 }
    (by decide) (by decide)

/-- C1 counterexample.  On a stable healthy candidate set with a single
candidate of weight 2 (`W = 2`), a selection call does not advance the
cursor by one modulo `W`: the cursor stays at 5 instead of becoming
`(5 + 1) % 2 = 0`. -/
theorem c1_counterexample :
    ¬ ((selectWeightedUpstream 5
          [({ url := "http://a:1", weight := 2, tag := "" } : WeightedUpstream)]).2 =
        (5 + 1) % weightSum [({ url := "http://a:1", weight := 2, tag := "" } :
          WeightedUpstream)]) := by
  decide

end Netdrift

namespace Netdrift

/-- Selection ignores the stats block: replacing it leaves the selector
unchanged. -/
theorem getNextUpstream_set_stats (ps : ProxyServer) (s : ServerStats) :
    getNextUpstream { ps with stats := s } = getNextUpstream ps := rfl

/-- C6.  When the CONNECT forwarded upstream is answered but the status
line does not contain the token 200, the pipeline answers 502, adds one
to the global and the selected upstream's failed counters, and counts no
success. -/
theorem c6_non200_fails_502 (ps : ProxyServer) (env : ConnectEnv) (u : String)
    (m : UpstreamStats) (pa : String × String) (resp : String)
    (hauth : authenticate ps.config env.proxyAuth = true)
    (hsel : (getNextUpstream ps).1 = u) (hu : ¬ u = "")
    (hm : mapLookup ps.stats.upstreamMetrics u = some m)
    (hp : parseUpstreamAuth u = Except.ok pa)
    (hd : env.dialOk = true) (hw : env.writeOk = true)
    (hr : env.readResult = some resp)
    (h200 : hasSeq "200".toList resp.toList = false) :
    (handleConnect ps env).2 = 502 ∧
    (handleConnect ps env).1.stats.failedRequests = ps.stats.failedRequests + 1 ∧
    (handleConnect ps env).1.stats.successRequests = ps.stats.successRequests ∧
    ((mapLookup (handleConnect ps env).1.stats.upstreamMetrics u).map
        (fun mm => (mm.failedRequests, mm.successRequests, mm.totalRequests))) =
      some (m.failedRequests + 1, m.successRequests, m.totalRequests + 1) := by
  unfold handleConnect
  simp only [getNextUpstream_set_stats, hauth, hsel, hu, Bool.not_true, Bool.false_eq_true,
    if_false, ite_false]
  unfold handleConnectUpstreamPhase
  simp only [hp, hd, hw, hr, h200, Bool.not_true, Bool.not_false, Bool.false_eq_true,
    if_false, if_true, ite_false, ite_true]
  unfold failBoth updateMetric
  simp [mapLookup_mapUpdate, hm]

end Netdrift

namespace Netdrift

theorem c6_non200_fails_502_witness :
    (handleConnect oneUpstreamState envUpstream403).2 = 502 ∧
    (handleConnect oneUpstreamState envUpstream403).1.stats.failedRequests =
      oneUpstreamState.stats.failedRequests + 1 ∧
    (handleConnect oneUpstreamState envUpstream403).1.stats.successRequests =
      oneUpstreamState.stats.successRequests ∧
    ((mapLookup (handleConnect oneUpstreamState envUpstream403).1.stats.upstreamMetrics
        "http://a:1").map
        (fun mm => (mm.failedRequests, mm.successRequests, mm.totalRequests))) =
      some ((initialMetric "http://a:1" "" 0).failedRequests + 1,
        (initialMetric "http://a:1" "" 0).successRequests,
        (initialMetric "http://a:1" "" 0).totalRequests + 1) :=
  c6_non200_fails_502 oneUpstreamState envUpstream403 "http://a:1"
    (initialMetric "http://a:1" "" 0) ("a:1", "") "HTTP/1.1 403 Forbidden"
    (by decide) (by decide) (by decide) (by decide) (by decide) (by decide) (by decide)
    (by decide) (by decide)

/-! Character-list groundwork for the credential round-trip. -/

theorem toList_asString (l : List Char) : (l.asString).toList = l := rfl

theorem toList_append_str (s t : String) : (s ++ t).toList = s.toList ++ t.toList := rfl

theorem string_eq_of_toList (s t : String) (h : s.toList = t.toList) : s = t := by
  cases s; cases t
  simp [String.toList] at h
  rw [h]

theorem isPrefixOf_append_self (p l : List Char) : p.isPrefixOf (p ++ l) = true := by
  induction p with
  | nil => simp [List.isPrefixOf]
  | cons c rest ih => simp [List.isPrefixOf, ih]

theorem asString_ne_empty (l : List Char) (h : l ≠ []) : l.asString ≠ "" := by
  intro he
  have h2 := congrArg String.toList he
  rw [toList_asString] at h2
  exact h h2

theorem replace40_of_not_hasSeq (l : List Char) (h : hasSeq "%40".toList l = false) :
    replace40 l = l := by
  induction l using replace40.induct with
  | case1 rest ih =>
    exfalso
    simp [hasSeq, List.isPrefixOf] at h
  | case2 c rest hne ih =>
    have h2 : hasSeq "%40".toList rest = false := by
      simp [hasSeq] at h
      exact h.2
    rw [replace40.eq_2 c rest hne, ih h2]
  | case3 => rfl

theorem splitOn_sandwich (userinfo host : List Char) (hu : '@' ∉ userinfo)
    (hh : '@' ∉ host) : (userinfo ++ '@' :: host).splitOn '@' = [userinfo, host] := by
  have hxs : ∀ x ∈ userinfo, ¬ ((x == '@') = true) := by
    intro x hx hbe
    exact hu ((beq_iff_eq.mp hbe) ▸ hx)
  have hhost : ∀ x ∈ host, ¬ ((x == '@') = true) := by
    intro x hx hbe
    exact hh ((beq_iff_eq.mp hbe) ▸ hx)
  show (userinfo ++ '@' :: host).splitOnP (· == '@') = [userinfo, host]
  rw [List.splitOnP_first _ _ hxs '@' (by simp) host, List.splitOnP_eq_single _ _ hhost]

/-- C7.  For an upstream URL with embedded userinfo, the registry derives
`Basic base64(userinfo)` with every `%40` decoded to `@` before encoding,
and the CONNECT bytes sent upstream are exactly the request line, `Host`
header, `Proxy-Authorization` header and blank line of the claim. -/
theorem c7_proxy_authorization_roundtrip (userinfo host target : List Char)
    (hu : '@' ∉ userinfo) (hh : '@' ∉ host)
    (hs : "https://".toList.isPrefixOf (userinfo ++ '@' :: host) = false) :
    parseUpstreamAuth ("http://".toList ++ (userinfo ++ '@' :: host)).asString =
      Except.ok (host.asString,
        ("Basic ".toList ++ base64Encode (replace40 userinfo)).asString) ∧
    buildConnectReq target.asString
        (("Basic ".toList ++ base64Encode (replace40 userinfo)).asString) =
      ("CONNECT ".toList ++ target ++ " HTTP/1.1\r\nHost: ".toList ++ target ++
        "\r\nProxy-Authorization: ".toList ++
        ("Basic ".toList ++ base64Encode (replace40 userinfo)) ++
        "\r\n\r\n".toList).asString := by
  constructor
  · have hpre : "http://".toList.isPrefixOf
        ("http://".toList ++ (userinfo ++ '@' :: host)) = true :=
      isPrefixOf_append_self _ _
    have hmem : '@' ∈ userinfo ++ '@' :: host :=
      List.mem_append.mpr (Or.inr (List.mem_cons_self _ _))
    unfold parseUpstreamAuth dropLeading
    rw [toList_asString]
    simp only [hpre, Bool.not_true, Bool.false_and, Bool.false_eq_true, if_false,
      if_true, List.drop_left, hs, hmem, if_pos, ite_true, ite_false]
    rw [splitOn_sandwich userinfo host hu hh]
    simp only [List.length_cons, List.length_nil, List.getD]
    by_cases h40 : hasSeq "%40".toList userinfo
    · have h40x : hasSeq ['%', '4', '0'] userinfo = true := h40
      simp [h40x]
    · simp only [Bool.not_eq_true] at h40
      have h40x : hasSeq ['%', '4', '0'] userinfo = false := h40
      simp [h40x, replace40_of_not_hasSeq userinfo h40]
  · unfold buildConnectReq
    rw [if_pos (asString_ne_empty _ (by simp))]
    apply string_eq_of_toList
    simp only [toList_append_str, toList_asString]

end Netdrift

namespace Netdrift

/-! Weighted round-robin counting machinery. -/

theorem weightSum_cons (u : WeightedUpstream) (rest : List WeightedUpstream) :
    weightSum (u :: rest) = u.weight + weightSum rest := by
  simp [weightSum]

theorem countP_congr_mem {α : Type} (l : List α) (p q : α → Bool)
    (h : ∀ a ∈ l, p a = q a) : l.countP p = l.countP q := by
  rw [List.countP_eq_length_filter, List.countP_eq_length_filter, List.filter_congr h]

theorem findByWeight_shift (us : List WeightedUpstream) (t acc d : Nat) :
    findByWeight (t + d) (acc + d) us = findByWeight t acc us := by
  induction us generalizing acc with
  | nil => rfl
  | cons u rest ih =>
    simp only [findByWeight]
    rw [show acc + d + u.weight = acc + u.weight + d from by omega]
    simp only [Nat.add_lt_add_iff_right]
    rw [ih]

theorem findByWeight_mem (us : List WeightedUpstream) (t acc : Nat) (s : String)
    (h : findByWeight t acc us = some s) : s ∈ us.map (·.url) := by
  induction us generalizing acc with
  | nil => simp [findByWeight] at h
  | cons u rest ih =>
    simp only [findByWeight] at h
    by_cases hc : t < acc + u.weight
    · rw [if_pos hc] at h
      simp only [Option.some.injEq] at h
      simp [← h]
    · rw [if_neg hc] at h
      simpa using Or.inr (ih _ h)

theorem findByWeight_isSome (us : List WeightedUpstream) (t acc : Nat)
    (hge : acc ≤ t) (hlt : t < acc + weightSum us) :
    (findByWeight t acc us).isSome = true := by
  induction us generalizing acc with
  | nil =>
    simp [weightSum] at hlt
    omega
  | cons u rest ih =>
    simp only [findByWeight]
    by_cases hc : t < acc + u.weight
    · rw [if_pos hc]; rfl
    · rw [if_neg hc]
      rw [weightSum_cons] at hlt
      exact ih (acc + u.weight) (by omega) (by omega)

theorem partialSum_zero (us : List WeightedUpstream) : partialSum us 0 = 0 := rfl

theorem partialSum_cons (u : WeightedUpstream) (rest : List WeightedUpstream) (i : Nat) :
    partialSum (u :: rest) (i + 1) = u.weight + partialSum rest i := by
  simp [partialSum, weightSum]

theorem findByWeight_band (us : List WeightedUpstream) (t acc : Nat)
    (hge : acc ≤ t) (hlt : t < acc + weightSum us) :
    ∃ i, ∃ hi : i < us.length, findByWeight t acc us = some ((us.get ⟨i, hi⟩).url) ∧
      acc + partialSum us i ≤ t ∧ t < acc + partialSum us (i + 1) := by
  induction us generalizing acc with
  | nil =>
    simp [weightSum] at hlt
    omega
  | cons u rest ih =>
    by_cases hc : t < acc + u.weight
    · refine ⟨0, by simp, ?_, ?_, ?_⟩
      · simp [findByWeight, hc]
      · simpa [partialSum_zero] using hge
      · simpa [partialSum_cons, partialSum_zero] using hc
    · rw [weightSum_cons] at hlt
      obtain ⟨i, hi, hf, hl, hr⟩ := ih (acc + u.weight) (by omega) (by omega)
      refine ⟨i + 1, by simpa using hi, ?_, ?_, ?_⟩
      · simp only [findByWeight, hc, if_false, ite_false]
        rw [hf]
        congr 1
      · rw [partialSum_cons]
        omega
      · rw [partialSum_cons]
        omega

theorem countP_range_rotate_one (W : Nat) (hW : 0 < W) (q : Nat → Bool) :
    (List.range W).countP (fun t => q ((1 + t) % W)) = (List.range W).countP q := by
  obtain ⟨m, rfl⟩ : ∃ m, W = m + 1 := ⟨W - 1, by omega⟩
  have hL : (List.range (m + 1)).countP (fun t => q ((1 + t) % (m + 1))) =
      (List.range m).countP (fun t => q (t + 1)) + (if q 0 then 1 else 0) := by
    rw [List.range_succ, List.countP_append]
    congr 1
    · apply countP_congr_mem
      intro t ht
      have htm : t < m := List.mem_range.mp ht
      rw [Nat.mod_eq_of_lt (by omega), Nat.add_comm]
    · rw [List.countP_cons, List.countP_nil, Nat.zero_add, Nat.add_comm 1 m, Nat.mod_self]
  have hR : (List.range (m + 1)).countP q =
      (List.range m).countP (fun t => q (t + 1)) + (if q 0 then 1 else 0) := by
    rw [List.range_succ_eq_map, List.countP_cons, List.countP_map]
    have hcomp : (q ∘ Nat.succ) = (fun t => q (t + 1)) := rfl
    rw [hcomp]
  rw [hL, hR]

theorem countP_range_shift_mod (W : Nat) (hW : 0 < W) (a : Nat) (q : Nat → Bool) :
    (List.range W).countP (fun k => q ((a + k) % W)) = (List.range W).countP q := by
  induction a generalizing q with
  | zero =>
    apply countP_congr_mem
    intro k hk
    rw [Nat.zero_add, Nat.mod_eq_of_lt (List.mem_range.mp hk)]
  | succ a ih =>
    have step : (List.range W).countP (fun k => q ((a + 1 + k) % W)) =
        (List.range W).countP (fun k => q ((1 + (a + k) % W) % W)) := by
      apply countP_congr_mem
      intro k hk
      congr 1
      rw [show a + 1 + k = 1 + (a + k) from by omega]
      rw [Nat.add_mod_mod]
    rw [step, ih (fun t => q ((1 + t) % W)), countP_range_rotate_one W hW q]

theorem runSelections_singleton (v : WeightedUpstream) (c n : Nat) :
    runSelections [v] c n = List.replicate n v.url := by
  induction n generalizing c with
  | zero => rfl
  | succ n ih =>
    show v.url :: runSelections [v] c n = _
    rw [ih, List.replicate_succ]

theorem selectWeightedUpstream_ge2 (u1 u2 : WeightedUpstream) (rest : List WeightedUpstream)
    (c : Nat) (hW : ¬ weightSum (u1 :: u2 :: rest) = 0) :
    selectWeightedUpstream c (u1 :: u2 :: rest) =
      (pickByWeight (u1 :: u2 :: rest) u1.url ((c + 1) % weightSum (u1 :: u2 :: rest)),
        (c + 1) % weightSum (u1 :: u2 :: rest)) := by
  show (if weightSum (u1 :: u2 :: rest) = 0 then _ else _) = _
  rw [if_neg hW]
  cases h : findByWeight ((c + 1) % weightSum (u1 :: u2 :: rest)) 0 (u1 :: u2 :: rest) <;>
    simp [pickByWeight, h]

theorem runSelections_ge2 (u1 u2 : WeightedUpstream) (rest : List WeightedUpstream)
    (hW : ¬ weightSum (u1 :: u2 :: rest) = 0) (c n : Nat) :
    runSelections (u1 :: u2 :: rest) c n =
      (List.range n).map (fun k =>
        pickByWeight (u1 :: u2 :: rest) u1.url
          ((c + 1 + k) % weightSum (u1 :: u2 :: rest))) := by
  induction n generalizing c with
  | zero => rfl
  | succ n ih =>
    show (selectWeightedUpstream c (u1 :: u2 :: rest)).1 ::
        runSelections (u1 :: u2 :: rest) (selectWeightedUpstream c (u1 :: u2 :: rest)).2 n = _
    rw [selectWeightedUpstream_ge2 u1 u2 rest c hW]
    rw [ih ((c + 1) % weightSum (u1 :: u2 :: rest))]
    rw [List.range_succ_eq_map, List.map_cons, List.map_map]
    congr 1
    apply List.map_congr_left
    intro k hk
    simp only [Function.comp]
    congr 1
    calc ((c + 1) % weightSum (u1 :: u2 :: rest) + 1 + k) % weightSum (u1 :: u2 :: rest) =
        ((c + 1) % weightSum (u1 :: u2 :: rest) + (1 + k)) % weightSum (u1 :: u2 :: rest) := by
          rw [Nat.add_assoc]
      _ = (c + 1 + (1 + k)) % weightSum (u1 :: u2 :: rest) := Nat.mod_add_mod _ _ _
      _ = (c + 1 + (k + 1)) % weightSum (u1 :: u2 :: rest) := by
          rw [show c + 1 + (1 + k) = c + 1 + (k + 1) from by omega]

theorem weightOf_cons (u : WeightedUpstream) (rest : List WeightedUpstream) (s : String) :
    weightOf s (u :: rest) = (if u.url = s then u.weight else 0) + weightOf s rest := by
  by_cases hs : u.url = s <;> simp [weightOf, hs]

theorem countP_range_findByWeight (us : List WeightedUpstream) (s : String) :
    (List.range (weightSum us)).countP (fun t => findByWeight t 0 us == some s) =
      weightOf s us := by
  induction us with
  | nil => simp [weightSum, weightOf]
  | cons u rest ih =>
    rw [weightSum_cons, List.range_add, List.countP_append, List.countP_map, weightOf_cons]
    have h1 : (List.range u.weight).countP
        (fun t => findByWeight t 0 (u :: rest) == some s) =
        if u.url = s then u.weight else 0 := by
      by_cases hs : u.url = s
      · rw [if_pos hs]
        rw [List.countP_eq_length.mpr, List.length_range]
        intro t ht
        have htw : t < u.weight := List.mem_range.mp ht
        simp [findByWeight, htw, hs]
      · rw [if_neg hs]
        apply List.countP_eq_zero.mpr
        intro t ht hbe
        have htw : t < u.weight := List.mem_range.mp ht
        simp [findByWeight, htw] at hbe
        exact hs hbe
    have h2 : (List.range (weightSum rest)).countP
        ((fun t => findByWeight t 0 (u :: rest) == some s) ∘ (u.weight + ·)) =
        weightOf s rest := by
      rw [← ih]
      apply countP_congr_mem
      intro t ht
      simp only [Function.comp]
      have hnc : ¬ (u.weight + t < 0 + u.weight) := by omega
      simp only [findByWeight, hnc, if_false, ite_false]
      rw [show u.weight + t = t + u.weight from Nat.add_comm _ _,
        show (0 : Nat) + u.weight = 0 + u.weight from rfl]
      rw [findByWeight_shift rest t 0 u.weight]
    rw [h1, h2]

theorem weightOf_eq_of_nodup (us : List WeightedUpstream) (u : WeightedUpstream)
    (hmem : u ∈ us) (hnd : (us.map (·.url)).Nodup) : weightOf u.url us = u.weight := by
  induction us with
  | nil => cases hmem
  | cons v rest ih =>
    rw [weightOf_cons]
    rcases List.mem_cons.mp hmem with heq | hmem2
    · subst heq
      rw [if_pos rfl]
      have hnotin : u.url ∉ rest.map (·.url) := (List.nodup_cons.mp hnd).1
      have hfil : rest.filter (fun v => decide (v.url = u.url)) = [] := by
        apply List.filter_eq_nil_iff.mpr
        intro a ha hpa
        exact hnotin (by
          have : a.url = u.url := by simpa using hpa
          rw [← this]
          exact List.mem_map_of_mem _ ha)
      have : weightOf u.url rest = 0 := by
        simp [weightOf, hfil]
      omega
    · have hne : ¬ v.url = u.url := by
        intro he
        apply (List.nodup_cons.mp hnd).1
        have hmm := List.mem_map_of_mem (fun x : WeightedUpstream => x.url) hmem2
        simpa [he] using hmm
      rw [if_neg hne, Nat.zero_add]
      exact ih hmem2 (List.nodup_cons.mp hnd).2

theorem runSelections_window_count (us : List WeightedUpstream) (c : Nat)
    (hw : ∀ v ∈ us, 0 < v.weight) (hnd : (us.map (·.url)).Nodup)
    (u : WeightedUpstream) (hu : u ∈ us) :
    (runSelections us c (weightSum us)).count u.url = u.weight := by
  match us with
  | [] => cases hu
  | [v] =>
    have huv : u = v := by simpa using hu
    subst huv
    rw [runSelections_singleton, List.count_replicate_self]
    simp [weightSum]
  | u1 :: u2 :: rest =>
    have hW : ¬ weightSum (u1 :: u2 :: rest) = 0 := by
      rw [weightSum_cons]
      have := hw u1 (by simp)
      omega
    have hWpos : 0 < weightSum (u1 :: u2 :: rest) := Nat.pos_of_ne_zero hW
    rw [runSelections_ge2 u1 u2 rest hW c]
    have h5 : ∀ t ∈ List.range (weightSum (u1 :: u2 :: rest)),
        (pickByWeight (u1 :: u2 :: rest) u1.url t == u.url) =
          (findByWeight t 0 (u1 :: u2 :: rest) == some u.url) := by
      intro t ht
      have htW : t < weightSum (u1 :: u2 :: rest) := List.mem_range.mp ht
      have hsome := findByWeight_isSome (u1 :: u2 :: rest) t 0 (Nat.zero_le t)
        (by simpa using htW)
      cases hfw : findByWeight t 0 (u1 :: u2 :: rest) with
      | none => rw [hfw] at hsome; simp at hsome
      | some s =>
        show (pickByWeight (u1 :: u2 :: rest) u1.url t == u.url) = (s == u.url)
        simp [pickByWeight, hfw]
    calc ((List.range (weightSum (u1 :: u2 :: rest))).map (fun k =>
            pickByWeight (u1 :: u2 :: rest) u1.url
              ((c + 1 + k) % weightSum (u1 :: u2 :: rest)))).count u.url
        = (List.range (weightSum (u1 :: u2 :: rest))).countP (fun k =>
            pickByWeight (u1 :: u2 :: rest) u1.url
              ((c + 1 + k) % weightSum (u1 :: u2 :: rest)) == u.url) := by
          rw [List.count_eq_countP, List.countP_map]
          rfl
      _ = (List.range (weightSum (u1 :: u2 :: rest))).countP (fun t =>
            pickByWeight (u1 :: u2 :: rest) u1.url t == u.url) :=
          countP_range_shift_mod _ hWpos (c + 1)
            (fun t => pickByWeight (u1 :: u2 :: rest) u1.url t == u.url)
      _ = (List.range (weightSum (u1 :: u2 :: rest))).countP (fun t =>
            findByWeight t 0 (u1 :: u2 :: rest) == some u.url) :=
          countP_congr_mem _ _ _ h5
      _ = weightOf u.url (u1 :: u2 :: rest) := countP_range_findByWeight _ _
      _ = u.weight := weightOf_eq_of_nodup _ u hu hnd

end Netdrift

namespace Netdrift

/-- C1 (amended: with two or more candidates each call advances the shared
cursor by one modulo `W` and picks by prefix-sum band; a single candidate
is returned directly and the cursor is untouched).  In all cases any
window of exactly `W` consecutive selections on a stable candidate list
returns candidate `i` exactly `w_i` times. -/
theorem c1_amended_weighted_window (us : List WeightedUpstream) (c : Nat)
    (hw : ∀ v ∈ us, 0 < v.weight) (hnd : (us.map (·.url)).Nodup) :
    (∀ v ∈ us, (runSelections us c (weightSum us)).count v.url = v.weight) ∧
    (∀ u1 u2 rest, us = u1 :: u2 :: rest →
      (selectWeightedUpstream c us).2 = (c + 1) % weightSum us ∧
      ∃ i, ∃ hi : i < us.length,
        (selectWeightedUpstream c us).1 = (us.get ⟨i, hi⟩).url ∧
        partialSum us i ≤ (c + 1) % weightSum us ∧
        (c + 1) % weightSum us < partialSum us (i + 1)) ∧
    (∀ v, us = [v] → selectWeightedUpstream c us = (v.url, c)) := by
  refine ⟨fun v hv => runSelections_window_count us c hw hnd v hv, ?_, ?_⟩
  · intro u1 u2 rest heq
    subst heq
    have hW : ¬ weightSum (u1 :: u2 :: rest) = 0 := by
      rw [weightSum_cons]
      have := hw u1 (by simp)
      omega
    have hWpos : 0 < weightSum (u1 :: u2 :: rest) := Nat.pos_of_ne_zero hW
    rw [selectWeightedUpstream_ge2 u1 u2 rest c hW]
    refine ⟨rfl, ?_⟩
    have hmod : (c + 1) % weightSum (u1 :: u2 :: rest) < weightSum (u1 :: u2 :: rest) :=
      Nat.mod_lt _ hWpos
    obtain ⟨i, hi, hf, hl, hr⟩ := findByWeight_band (u1 :: u2 :: rest) _ 0
      (Nat.zero_le _) (by simpa using hmod)
    refine ⟨i, hi, ?_, by simpa using hl, by simpa using hr⟩
    simp [pickByWeight, hf]
  · intro v heq
    subst heq
    rfl

theorem c1_amended_weighted_window_witness :
    (runSelections
        [({ url := "http://a:1", weight := 1, tag := "" } : WeightedUpstream),
         ({ url := "http://b:1", weight := 2, tag := "" } : WeightedUpstream)] 0
        (weightSum
          [({ url := "http://a:1", weight := 1, tag := "" } : WeightedUpstream),
           ({ url := "http://b:1", weight := 2, tag := "" } : WeightedUpstream)])).count
      "http://b:1" = 2 :=
  (c1_amended_weighted_window
      [({ url := "http://a:1", weight := 1, tag := "" } : WeightedUpstream),
       ({ url := "http://b:1", weight := 2, tag := "" } : WeightedUpstream)] 0
      (by decide) (by decide)).1
    { url := "http://b:1", weight := 2, tag := "" } (by decide)

end Netdrift

namespace Netdrift

/-! Frame and accounting lemmas for the connect pipeline. -/

theorem mapUpdate_id_of_not_mem {β : Type} (m : List (String × β)) (k : String) (f : β → β)
    (h : k ∉ m.map (·.1)) : mapUpdate m k f = m := by
  induction m with
  | nil => rfl
  | cons e rest ih =>
    obtain ⟨a, b⟩ := e
    rw [mapUpdate_cons]
    have hak : ¬ a = k := by
      intro he
      exact h (by simp [he])
    rw [if_neg hak, ih (fun hm => h (List.mem_cons_of_mem _ hm))]

theorem sumTotals_mapUpdate_keep (m : List (String × UpstreamStats)) (k : String)
    (f : UpstreamStats → UpstreamStats)
    (hf : ∀ s, (f s).totalRequests = s.totalRequests) :
    ((mapUpdate m k f).map (fun p => p.2.totalRequests)).sum =
      (m.map (fun p => p.2.totalRequests)).sum := by
  induction m with
  | nil => rfl
  | cons e rest ih =>
    obtain ⟨a, b⟩ := e
    rw [mapUpdate_cons]
    by_cases hak : a = k <;> simp [hak, hf, ih]

theorem sumTotals_mapUpdate_inc (m : List (String × UpstreamStats)) (k : String)
    (f : UpstreamStats → UpstreamStats)
    (hf : ∀ s, (f s).totalRequests = s.totalRequests + 1)
    (hk : (mapLookup m k).isSome = true) (hnd : (m.map (·.1)).Nodup) :
    ((mapUpdate m k f).map (fun p => p.2.totalRequests)).sum =
      (m.map (fun p => p.2.totalRequests)).sum + 1 := by
  induction m with
  | nil => simp [mapLookup] at hk
  | cons e rest ih =>
    obtain ⟨a, b⟩ := e
    rw [mapUpdate_cons]
    by_cases hak : a = k
    · subst hak
      have hnot : a ∉ rest.map (·.1) := (List.nodup_cons.mp hnd).1
      rw [if_pos rfl, mapUpdate_id_of_not_mem rest a f hnot]
      simp [hf]
      omega
    · have hk2 : (mapLookup rest k).isSome = true := by
        simpa [mapLookup, hak] using hk
      rw [if_neg hak]
      simp [ih hk2 (List.nodup_cons.mp hnd).2]
      omega

theorem keys_updateMetric (ps : ProxyServer) (u : String)
    (f : UpstreamStats → UpstreamStats) :
    ((updateMetric ps u f).stats.upstreamMetrics.map (·.1)) =
      (ps.stats.upstreamMetrics.map (·.1)) :=
  keys_mapUpdate _ _ _

theorem sumTotals_updateMetric_keep (ps : ProxyServer) (u : String)
    (f : UpstreamStats → UpstreamStats)
    (hf : ∀ s, (f s).totalRequests = s.totalRequests) :
    sumUpstreamTotals (updateMetric ps u f) = sumUpstreamTotals ps :=
  sumTotals_mapUpdate_keep _ _ _ hf

theorem failBoth_frame (ps : ProxyServer) (u : String) :
    FrameStep (failBoth ps u) ps 1 0 := by
  unfold FrameStep failBoth
  refine ⟨rfl, rfl, rfl, rfl, rfl, rfl, rfl, rfl, keys_updateMetric _ _ _, ?_⟩
  rw [Nat.add_zero]
  exact sumTotals_updateMetric_keep _ _ _ (fun s => rfl)

theorem connectSuccess_frame (ps : ProxyServer) (u : String) (env : ConnectEnv) :
    FrameStep (connectSuccess ps u env) ps 1 0 := by
  unfold FrameStep connectSuccess
  refine ⟨rfl, rfl, rfl, rfl, rfl, rfl, rfl, ?_, ?_, ?_⟩
  · show ps.stats.successRequests + 1 + ps.stats.failedRequests =
      ps.stats.successRequests + ps.stats.failedRequests + 1
    omega
  · rw [keys_updateMetric, keys_updateMetric, keys_updateMetric, keys_updateMetric]
  · show ((mapUpdate (mapUpdate (mapUpdate (mapUpdate ps.stats.upstreamMetrics u
        (fun m => { m with successRequests := m.successRequests + 1 })) u
        (fun m => { m with totalLatency := m.totalLatency + env.elapsed })) u
        (fun m => { m with totalLatency := m.totalLatency + env.elapsed })) u
        (fun m => { m with lastRequest := env.now + env.elapsed, avgLatency := (m.totalLatency : Rat) / (m.successRequests : Rat) })).map
        (fun p => p.2.totalRequests)).sum =
      (ps.stats.upstreamMetrics.map (fun p => p.2.totalRequests)).sum + 0
    rw [Nat.add_zero]
    rw [sumTotals_mapUpdate_keep, sumTotals_mapUpdate_keep, sumTotals_mapUpdate_keep,
      sumTotals_mapUpdate_keep]
    all_goals intro s
    all_goals rfl

theorem upstreamPhase_frame (ps : ProxyServer) (env : ConnectEnv) (u : String) :
    FrameStep (handleConnectUpstreamPhase ps env u).1 ps 1 0 := by
  unfold handleConnectUpstreamPhase
  cases hp : parseUpstreamAuth u with
  | error e => exact failBoth_frame ps u
  | ok hostAuth =>
    by_cases hd : env.dialOk = true
    · simp only [hd, Bool.not_true, Bool.false_eq_true, if_false, ite_false]
      by_cases hw : env.writeOk = true
      · simp only [hw, Bool.not_true, Bool.false_eq_true, if_false, ite_false]
        cases hr : env.readResult with
        | none => exact failBoth_frame ps u
        | some resp =>
          by_cases h200 : hasSeq "200".toList resp.toList = true
          · simp only [h200, Bool.not_true, Bool.false_eq_true, if_false, ite_false]
            by_cases hhs : env.hijackSupported = true
            · simp only [hhs, Bool.not_true, Bool.false_eq_true, if_false, ite_false]
              by_cases hho : env.hijackOk = true
              · simp only [hho, Bool.not_true, Bool.false_eq_true, if_false, ite_false]
                by_cases hcw : env.clientWriteOk = true
                · simp only [hcw, Bool.not_true, Bool.false_eq_true, if_false, ite_false]
                  exact connectSuccess_frame ps u env
                · simp only [Bool.not_eq_true] at hcw
                  simp only [hcw, Bool.not_false, if_true, ite_true]
                  exact failBoth_frame ps u
              · simp only [Bool.not_eq_true] at hho
                simp only [hho, Bool.not_false, if_true, ite_true]
                exact failBoth_frame ps u
            · simp only [Bool.not_eq_true] at hhs
              simp only [hhs, Bool.not_false, if_true, ite_true]
              exact failBoth_frame ps u
          · simp only [Bool.not_eq_true] at h200
            simp only [h200, Bool.not_false, if_true, ite_true]
            exact failBoth_frame ps u
      · simp only [Bool.not_eq_true] at hw
        simp only [hw, Bool.not_false, if_true, ite_true]
        exact failBoth_frame ps u
    · simp only [Bool.not_eq_true] at hd
      simp only [hd, Bool.not_false, if_true, ite_true]
      exact failBoth_frame ps u

end Netdrift

namespace Netdrift

theorem mapLookup_isSome_iff {β : Type} (m : List (String × β)) (key : String) :
    (mapLookup m key).isSome = true ↔ key ∈ m.map (·.1) := by
  induction m with
  | nil => simp
  | cons e rest ih =>
    obtain ⟨a, b⟩ := e
    by_cases hak : a = key
    · simp [hak]
    · simp only [mapLookup_cons, hak, if_false, ite_false, List.map_cons]
      rw [ih]
      constructor
      · exact fun h => List.mem_cons_of_mem _ h
      · intro h
        rcases List.mem_cons.mp h with he | h2
        · exact absurd he.symm hak
        · exact h2

theorem selectWeightedUpstream_mem (us : List WeightedUpstream) (c : Nat) (hne : us ≠ []) :
    (selectWeightedUpstream c us).1 ∈ us.map (·.url) := by
  match us with
  | [] => exact absurd rfl hne
  | [u] => simp [selectWeightedUpstream]
  | u1 :: u2 :: rest =>
    by_cases hW : weightSum (u1 :: u2 :: rest) = 0
    · simp [selectWeightedUpstream, hW]
    · rw [selectWeightedUpstream_ge2 u1 u2 rest c hW]
      cases hf : findByWeight ((c + 1) % weightSum (u1 :: u2 :: rest)) 0
          (u1 :: u2 :: rest) with
      | none => simp [pickByWeight, hf]
      | some s =>
        have hmm := findByWeight_mem _ _ _ _ hf
        simpa [pickByWeight, hf] using hmm

theorem leastFoldl_mem (health : List (String × UpstreamHealth)) (S : List String)
    (l : List String) (b : String × Int) (hb : b.1 ∈ S) (hl : ∀ x ∈ l, x ∈ S) :
    (l.foldl (fun best upstream =>
      match mapLookup health upstream with
      | some h =>
        if (h.failureCount : Int) < best.2 then (upstream, (h.failureCount : Int)) else best
      | none => best) b).1 ∈ S := by
  induction l generalizing b with
  | nil => exact hb
  | cons x rest ih =>
    rw [List.foldl_cons]
    apply ih
    · cases hx : mapLookup health x with
      | none => exact hb
      | some h =>
        show (if (h.failureCount : Int) < b.2 then (x, (h.failureCount : Int)) else b).1 ∈ S
        by_cases hlt : (h.failureCount : Int) < b.2
        · rw [if_pos hlt]
          exact hl x (List.mem_cons_self _ _)
        · rw [if_neg hlt]
          exact hb
    · exact fun y hy => hl y (List.mem_cons_of_mem _ hy)

theorem getLeastFailedUpstream_mem (ps : ProxyServer) (hne : ps.upstreams ≠ []) :
    getLeastFailedUpstream ps ∈ ps.upstreams := by
  cases hps : ps.upstreams with
  | nil => exact absurd hps hne
  | cons first restU =>
    unfold getLeastFailedUpstream
    rw [hps]
    exact leastFoldl_mem ps.upstreamHealth (first :: restU) (first :: restU)
      (first, 999999) (List.mem_cons_self _ _) (fun x hx => hx)

theorem getNextUpstream_empty (ps : ProxyServer)
    (h : ps.weightedUpstreams.isEmpty = true) :
    getNextUpstream ps = ("", ps.currentIdx) := by
  unfold getNextUpstream
  rw [if_pos h]

theorem getNextUpstream_mem (ps : ProxyServer)
    (hub : ps.upstreams = ps.weightedUpstreams.map (·.url))
    (hne : ¬ ps.weightedUpstreams.isEmpty = true) :
    (getNextUpstream ps).1 ∈ ps.upstreams := by
  unfold getNextUpstream
  rw [if_neg hne]
  by_cases hh : (getHealthyUpstreams ps).isEmpty = true
  · rw [if_pos hh]
    apply getLeastFailedUpstream_mem
    rw [hub]
    intro h0
    have hwnil : ps.weightedUpstreams = [] := List.map_eq_nil_iff.mp h0
    exact hne (by rw [hwnil]; rfl)
  · rw [if_neg hh]
    have hne2 : getHealthyUpstreams ps ≠ [] := fun h0 => hh (by rw [h0]; rfl)
    have hmm := selectWeightedUpstream_mem (getHealthyUpstreams ps) ps.currentIdx hne2
    rw [hub]
    obtain ⟨w, hwmem, hweq⟩ := List.mem_map.mp hmm
    exact List.mem_map.mpr ⟨w, (List.mem_filter.mp hwmem).1, hweq⟩

theorem selectedComposite (q : ProxyServer) (env : ConnectEnv) (u : String)
    (hk : (mapLookup q.stats.upstreamMetrics u).isSome = true)
    (hnd0 : (q.stats.upstreamMetrics.map (·.1)).Nodup) :
    FrameStep
      (updateMetric (handleConnectUpstreamPhase (updateMetric q u (fun m =>
          { m with totalRequests := m.totalRequests + 1,
                   currentConnections := m.currentConnections + 1 })) env u).1 u
        (fun m => { m with currentConnections := m.currentConnections - 1 }))
      q 1 1 := by
  obtain ⟨hc1, hc2, hc3, hc4, hc5, hc6, hc7, hc8, hc9, hc10⟩ :=
    upstreamPhase_frame (updateMetric q u (fun m =>
      { m with totalRequests := m.totalRequests + 1,
               currentConnections := m.currentConnections + 1 })) env u
  refine ⟨hc1, hc2, hc3, hc4, hc5, hc6, hc7, hc8, ?_, ?_⟩
  · rw [keys_updateMetric, hc9, keys_updateMetric]
  · rw [sumTotals_updateMetric_keep]
    · rw [hc10, Nat.add_zero]
      show ((mapUpdate q.stats.upstreamMetrics u (fun m =>
          { m with totalRequests := m.totalRequests + 1,
                   currentConnections := m.currentConnections + 1 })).map
          (fun p => p.2.totalRequests)).sum =
        (q.stats.upstreamMetrics.map (fun p => p.2.totalRequests)).sum + 1
      exact sumTotals_mapUpdate_inc _ _ _ (fun s => rfl) hk hnd0
    · intro s
      rfl

end Netdrift

namespace Netdrift

/-- One `handleConnect` call: the registry and health are untouched, the
global total rises by one, exactly one of success/failed rises by one,
and the per-upstream totals rise by one exactly when the request passed
authentication and found a nonempty registry. -/
theorem handleConnect_step (ps : ProxyServer) (env : ConnectEnv)
    (hub : ps.upstreams = ps.weightedUpstreams.map (·.url))
    (hempty : ¬ "" ∈ ps.upstreams)
    (hkeys : ∀ u ∈ ps.upstreams, (mapLookup ps.stats.upstreamMetrics u).isSome = true)
    (hnd : (ps.stats.upstreamMetrics.map (·.1)).Nodup) :
    (handleConnect ps env).1.config = ps.config ∧
    (handleConnect ps env).1.upstreams = ps.upstreams ∧
    (handleConnect ps env).1.weightedUpstreams = ps.weightedUpstreams ∧
    (handleConnect ps env).1.upstreamHealth = ps.upstreamHealth ∧
    ((handleConnect ps env).1.stats.upstreamMetrics.map (·.1)) =
      (ps.stats.upstreamMetrics.map (·.1)) ∧
    (handleConnect ps env).1.stats.totalRequests = ps.stats.totalRequests + 1 ∧
    (handleConnect ps env).1.stats.successRequests +
        (handleConnect ps env).1.stats.failedRequests =
      ps.stats.successRequests + ps.stats.failedRequests + 1 ∧
    sumUpstreamTotals (handleConnect ps env).1 =
      sumUpstreamTotals ps +
        (if (authenticate ps.config env.proxyAuth && !ps.weightedUpstreams.isEmpty) = true
          then 1 else 0) := by
  by_cases hauth : authenticate ps.config env.proxyAuth = true
  · by_cases hwe : ps.weightedUpstreams.isEmpty = true
    · have hsel : getNextUpstream ps = ("", ps.currentIdx) := getNextUpstream_empty ps hwe
      unfold handleConnect
      simp only [getNextUpstream_set_stats, hauth, Bool.not_true, Bool.false_eq_true,
        if_false, ite_false, hsel, hwe, Bool.true_and, Bool.not_true, Bool.false_eq_true]
      refine ⟨?_, ?_, ?_, ?_, ?_, ?_, ?_, ?_⟩ <;> trivial
    · have hwe' : ps.weightedUpstreams.isEmpty = false := by
        simpa using hwe
      have hmem : (getNextUpstream ps).1 ∈ ps.upstreams := getNextUpstream_mem ps hub hwe
      have hne' : ¬ (getNextUpstream ps).1 = "" := fun he => hempty (he ▸ hmem)
      obtain ⟨hc1, hc2, hc3, hc4, hc5, hc6, hc7, hc8, hc9, hc10⟩ :=
        selectedComposite
          { ps with
            currentIdx := (getNextUpstream ps).2,
            stats := { ps.stats with
                       currentRequests := ps.stats.currentRequests + 1,
                       maxConcurrency :=
                         max ps.stats.maxConcurrency (ps.stats.currentRequests + 1),
                       totalRequests := ps.stats.totalRequests + 1 } }
          env (getNextUpstream ps).1 (hkeys _ hmem) hnd
      unfold handleConnect
      simp only [getNextUpstream_set_stats, hauth, Bool.not_true, Bool.false_eq_true,
        if_false, ite_false, hne', hwe', Bool.not_false, Bool.true_and, if_true, ite_true]
      exact ⟨hc1, hc3, hc4, hc6, hc9, hc7, hc8, hc10⟩
  · simp only [Bool.not_eq_true] at hauth
    unfold handleConnect
    simp only [hauth, Bool.not_false, if_true, ite_true, Bool.false_and,
      Bool.false_eq_true, if_false, ite_false]
    refine ⟨?_, ?_, ?_, ?_, ?_, ?_, ?_, ?_⟩ <;> trivial

theorem processRequests_props (envs : List ConnectEnv) : ∀ (ps : ProxyServer),
    ps.upstreams = ps.weightedUpstreams.map (·.url) →
    ¬ "" ∈ ps.upstreams →
    (∀ u ∈ ps.upstreams, (mapLookup ps.stats.upstreamMetrics u).isSome = true) →
    (ps.stats.upstreamMetrics.map (·.1)).Nodup →
    (processRequests ps envs).config = ps.config ∧
    (processRequests ps envs).stats.totalRequests = ps.stats.totalRequests + envs.length ∧
    (processRequests ps envs).stats.successRequests +
        (processRequests ps envs).stats.failedRequests =
      ps.stats.successRequests + ps.stats.failedRequests + envs.length ∧
    sumUpstreamTotals (processRequests ps envs) =
      sumUpstreamTotals ps + envs.countP (fun e =>
        authenticate ps.config e.proxyAuth && !ps.weightedUpstreams.isEmpty) := by
  induction envs with
  | nil =>
    intro ps _ _ _ _
    exact ⟨rfl, rfl, rfl, by simp [processRequests]⟩
  | cons e rest ih =>
    intro ps hub hempty hkeys hnd
    obtain ⟨s1, s2, s3, s4, s5, s6, s7, s8⟩ := handleConnect_step ps e hub hempty hkeys hnd
    have hub' : (handleConnect ps e).1.upstreams =
        (handleConnect ps e).1.weightedUpstreams.map (·.url) := by
      rw [s2, s3, hub]
    have hempty' : ¬ "" ∈ (handleConnect ps e).1.upstreams := by
      rw [s2]; exact hempty
    have hkeys' : ∀ u ∈ (handleConnect ps e).1.upstreams,
        (mapLookup (handleConnect ps e).1.stats.upstreamMetrics u).isSome = true := by
      intro u hu
      rw [s2] at hu
      rw [mapLookup_isSome_iff, s5, ← mapLookup_isSome_iff]
      exact hkeys u hu
    have hnd' : ((handleConnect ps e).1.stats.upstreamMetrics.map (·.1)).Nodup := by
      rw [s5]; exact hnd
    obtain ⟨t1, t2, t3, t4⟩ := ih (handleConnect ps e).1 hub' hempty' hkeys' hnd'
    have hfold : processRequests ps (e :: rest) =
        processRequests (handleConnect ps e).1 rest := rfl
    rw [hfold]
    refine ⟨by rw [t1, s1], ?_, ?_, ?_⟩
    · rw [t2, s6, List.length_cons]
      omega
    · rw [s7] at t3
      rw [t3, List.length_cons]
      omega
    · rw [s1, s3] at t4
      rw [t4, s8, List.countP_cons]
      omega

/-- C5 (amended: the per-upstream totals sum to the number of requests
that passed authentication and found a nonempty registry, which can be
strictly below the global total).  The global total always equals
success + failed. -/
theorem c5_amended_metrics_consistency (ps : ProxyServer) (envs : List ConnectEnv)
    (hub : ps.upstreams = ps.weightedUpstreams.map (·.url))
    (hempty : ¬ "" ∈ ps.upstreams)
    (hkeys : ∀ u ∈ ps.upstreams, (mapLookup ps.stats.upstreamMetrics u).isSome = true)
    (hnd : (ps.stats.upstreamMetrics.map (·.1)).Nodup)
    (hz : ps.stats.totalRequests = 0 ∧ ps.stats.successRequests = 0 ∧
      ps.stats.failedRequests = 0 ∧ sumUpstreamTotals ps = 0) :
    (processRequests ps envs).stats.totalRequests =
      (processRequests ps envs).stats.successRequests +
        (processRequests ps envs).stats.failedRequests ∧
    sumUpstreamTotals (processRequests ps envs) =
      envs.countP (fun e =>
        authenticate ps.config e.proxyAuth && !ps.weightedUpstreams.isEmpty) ∧
    sumUpstreamTotals (processRequests ps envs) ≤
      (processRequests ps envs).stats.totalRequests := by
  obtain ⟨t1, t2, t3, t4⟩ := processRequests_props envs ps hub hempty hkeys hnd
  obtain ⟨hz1, hz2, hz3, hz4⟩ := hz
  rw [hz1] at t2
  rw [hz2, hz3] at t3
  rw [hz4] at t4
  refine ⟨by omega, by omega, ?_⟩
  have hle := List.countP_le_length (l := envs) (p := fun e =>
    authenticate ps.config e.proxyAuth && !ps.weightedUpstreams.isEmpty)
  omega

theorem c5_amended_metrics_consistency_witness :
    (processRequests oneUpstreamState [envEstablished, envDialFail]).stats.totalRequests =
      (processRequests oneUpstreamState
          [envEstablished, envDialFail]).stats.successRequests +
        (processRequests oneUpstreamState
          [envEstablished, envDialFail]).stats.failedRequests ∧
    sumUpstreamTotals (processRequests oneUpstreamState [envEstablished, envDialFail]) =
      [envEstablished, envDialFail].countP (fun e =>
        authenticate oneUpstreamState.config e.proxyAuth &&
          !oneUpstreamState.weightedUpstreams.isEmpty) := by
  have h := c5_amended_metrics_consistency oneUpstreamState [envEstablished, envDialFail]
    (by decide) (by decide) (by decide) (by decide) ⟨by decide, by decide, by decide, by decide⟩
  exact ⟨h.1, h.2.1⟩

end Netdrift

namespace Netdrift

/-! Reload machinery: effects of folding `buildStep` over config entries. -/

theorem buildStep_health_preserved (now : Nat) (q : ProxyServer) (e : UpstreamProxyConfig)
    (url : String) (h : UpstreamHealth) (hl : mapLookup q.upstreamHealth url = some h) :
    ∃ h₂, mapLookup (buildStep now q e).upstreamHealth url = some h₂ ∧
      h₂.failureCount = h.failureCount ∧ h₂.successCount = h.successCount ∧
      h₂.lastFailure = h.lastFailure ∧ h₂.lastSuccess = h.lastSuccess ∧
      h₂.isHealthy = h.isHealthy ∧ h₂.failureThreshold = h.failureThreshold ∧
      h₂.recoveryThreshold = h.recoveryThreshold := by
  unfold buildStep
  by_cases he : e.enabled = true
  · simp only [he, if_true, ite_true]
    cases hx : mapLookup q.upstreamHealth e.url with
    | none =>
      cases hs : mapLookup q.stats.upstreamMetrics e.url <;>
        exact ⟨h, mapLookup_append_some _ hl, rfl, rfl, rfl, rfl, rfl, rfl, rfl⟩
    | some hw =>
      cases hs : mapLookup q.stats.upstreamMetrics e.url <;>
        · rw [show (mapUpdate q.upstreamHealth e.url (fun hh => { hh with tag := e.tag })) =
            mapUpdate q.upstreamHealth e.url (fun hh => { hh with tag := e.tag }) from rfl]
          by_cases hu : url = e.url
          · refine ⟨{ h with tag := e.tag }, ?_, rfl, rfl, rfl, rfl, rfl, rfl, rfl⟩
            rw [mapLookup_mapUpdate, if_pos hu, hl]
            rfl
          · refine ⟨h, ?_, rfl, rfl, rfl, rfl, rfl, rfl, rfl⟩
            rw [mapLookup_mapUpdate, if_neg hu, hl]
  · simp only [Bool.not_eq_true] at he
    simp only [he, Bool.false_eq_true, if_false, ite_false]
    exact ⟨h, hl, rfl, rfl, rfl, rfl, rfl, rfl, rfl⟩

theorem buildFold_health_preserved (entries : List UpstreamProxyConfig) (now : Nat) :
    ∀ (q : ProxyServer) (url : String) (h : UpstreamHealth),
    mapLookup q.upstreamHealth url = some h →
    ∃ h₂, mapLookup (entries.foldl (buildStep now) q).upstreamHealth url = some h₂ ∧
      h₂.failureCount = h.failureCount ∧ h₂.successCount = h.successCount ∧
      h₂.lastFailure = h.lastFailure ∧ h₂.lastSuccess = h.lastSuccess ∧
      h₂.isHealthy = h.isHealthy ∧ h₂.failureThreshold = h.failureThreshold ∧
      h₂.recoveryThreshold = h.recoveryThreshold := by
  induction entries with
  | nil => exact fun q url h hl => ⟨h, hl, rfl, rfl, rfl, rfl, rfl, rfl, rfl⟩
  | cons e rest ih =>
    intro q url h hl
    obtain ⟨h₂, hl₂, p1, p2, p3, p4, p5, p6, p7⟩ := buildStep_health_preserved now q e url h hl
    obtain ⟨h₃, hl₃, q1, q2, q3, q4, q5, q6, q7⟩ := ih (buildStep now q e) url h₂ hl₂
    rw [List.foldl_cons]
    exact ⟨h₃, hl₃, by rw [q1, p1], by rw [q2, p2], by rw [q3, p3], by rw [q4, p4],
      by rw [q5, p5], by rw [q6, p6], by rw [q7, p7]⟩

theorem buildStep_stats_preserved (now : Nat) (q : ProxyServer) (e : UpstreamProxyConfig)
    (url : String) (m : UpstreamStats) (hl : mapLookup q.stats.upstreamMetrics url = some m) :
    ∃ m₂, mapLookup (buildStep now q e).stats.upstreamMetrics url = some m₂ ∧
      m₂.totalRequests = m.totalRequests ∧ m₂.successRequests = m.successRequests ∧
      m₂.failedRequests = m.failedRequests ∧ m₂.totalLatency = m.totalLatency ∧
      m₂.avgLatency = m.avgLatency ∧ m₂.currentConnections = m.currentConnections ∧
      m₂.lastRequest = m.lastRequest := by
  unfold buildStep
  by_cases he : e.enabled = true
  · simp only [he, if_true, ite_true]
    cases hx : mapLookup q.upstreamHealth e.url <;>
      · cases hs : mapLookup q.stats.upstreamMetrics e.url with
        | none => exact ⟨m, mapLookup_append_some _ hl, rfl, rfl, rfl, rfl, rfl, rfl, rfl⟩
        | some mw =>
          by_cases hu : url = e.url
          · refine ⟨{ m with tag := e.tag }, ?_, rfl, rfl, rfl, rfl, rfl, rfl, rfl⟩
            rw [mapLookup_mapUpdate, if_pos hu, hl]
            rfl
          · refine ⟨m, ?_, rfl, rfl, rfl, rfl, rfl, rfl, rfl⟩
            rw [mapLookup_mapUpdate, if_neg hu, hl]
  · simp only [Bool.not_eq_true] at he
    simp only [he, Bool.false_eq_true, if_false, ite_false]
    exact ⟨m, hl, rfl, rfl, rfl, rfl, rfl, rfl, rfl⟩

theorem buildFold_stats_preserved (entries : List UpstreamProxyConfig) (now : Nat) :
    ∀ (q : ProxyServer) (url : String) (m : UpstreamStats),
    mapLookup q.stats.upstreamMetrics url = some m →
    ∃ m₂, mapLookup (entries.foldl (buildStep now) q).stats.upstreamMetrics url = some m₂ ∧
      m₂.totalRequests = m.totalRequests ∧ m₂.successRequests = m.successRequests ∧
      m₂.failedRequests = m.failedRequests ∧ m₂.totalLatency = m.totalLatency ∧
      m₂.avgLatency = m.avgLatency ∧ m₂.currentConnections = m.currentConnections ∧
      m₂.lastRequest = m.lastRequest := by
  induction entries with
  | nil => exact fun q url m hl => ⟨m, hl, rfl, rfl, rfl, rfl, rfl, rfl, rfl⟩
  | cons e rest ih =>
    intro q url m hl
    obtain ⟨m₂, hl₂, p1, p2, p3, p4, p5, p6, p7⟩ := buildStep_stats_preserved now q e url m hl
    obtain ⟨m₃, hl₃, q1, q2, q3, q4, q5, q6, q7⟩ := ih (buildStep now q e) url m₂ hl₂
    rw [List.foldl_cons]
    exact ⟨m₃, hl₃, by rw [q1, p1], by rw [q2, p2], by rw [q3, p3], by rw [q4, p4],
      by rw [q5, p5], by rw [q6, p6], by rw [q7, p7]⟩

end Netdrift

namespace Netdrift

theorem buildStep_disabled (now : Nat) (q : ProxyServer) (e : UpstreamProxyConfig)
    (he : e.enabled = false) : buildStep now q e = q := by
  unfold buildStep
  rw [he]
  rfl

theorem buildStep_health_none (now : Nat) (q : ProxyServer) (e : UpstreamProxyConfig)
    (url : String) (hne : e.url ≠ url) (hl : mapLookup q.upstreamHealth url = none) :
    mapLookup (buildStep now q e).upstreamHealth url = none := by
  unfold buildStep
  by_cases he : e.enabled = true
  · simp only [he, if_true, ite_true]
    cases hx : mapLookup q.upstreamHealth e.url with
    | none =>
      cases hs : mapLookup q.stats.upstreamMetrics e.url <;>
        · show mapLookup (q.upstreamHealth ++ [(e.url, defaultBuildHealth e.tag)]) url = none
          rw [mapLookup_append_none _ hl, mapLookup_cons, if_neg hne, mapLookup_nil]
    | some hw =>
      cases hs : mapLookup q.stats.upstreamMetrics e.url <;>
        · show mapLookup (mapUpdate q.upstreamHealth e.url
            (fun h => { h with tag := e.tag })) url = none
          rw [mapLookup_mapUpdate, if_neg (fun h => hne h.symm), hl]
  · simp only [Bool.not_eq_true] at he
    simp only [he, Bool.false_eq_true, if_false, ite_false]
    exact hl

theorem buildStep_health_created (now : Nat) (q : ProxyServer) (e : UpstreamProxyConfig)
    (he : e.enabled = true) (hl : mapLookup q.upstreamHealth e.url = none) :
    mapLookup (buildStep now q e).upstreamHealth e.url = some (defaultBuildHealth e.tag) := by
  unfold buildStep
  simp only [he, if_true, ite_true]
  rw [show mapLookup q.upstreamHealth e.url = none from hl]
  cases hs : mapLookup q.stats.upstreamMetrics e.url <;>
    · show mapLookup (q.upstreamHealth ++ [(e.url, defaultBuildHealth e.tag)]) e.url =
        some (defaultBuildHealth e.tag)
      rw [mapLookup_append_none _ hl, mapLookup_cons, if_pos rfl]

theorem buildFold_health_created (entries : List UpstreamProxyConfig) (now : Nat) :
    ∀ (q : ProxyServer) (url : String),
    mapLookup q.upstreamHealth url = none →
    url ∈ (entries.filter (·.enabled)).map (·.url) →
    ∃ h, mapLookup (entries.foldl (buildStep now) q).upstreamHealth url = some h ∧
      h.failureCount = 0 ∧ h.successCount = 0 ∧ h.isHealthy = true ∧
      h.failureThreshold = 3 ∧ h.recoveryThreshold = 1 := by
  induction entries with
  | nil => intro q url _ hmem; simp at hmem
  | cons e rest ih =>
    intro q url hl hmem
    rw [List.foldl_cons]
    by_cases he : e.enabled = true
    · by_cases hu : e.url = url
      · subst hu
        have hc := buildStep_health_created now q e he hl
        obtain ⟨h₂, hl₂, p1, p2, p3, p4, p5, p6, p7⟩ :=
          buildFold_health_preserved rest now (buildStep now q e) e.url
            (defaultBuildHealth e.tag) hc
        exact ⟨h₂, hl₂, p1, p2, p5, p6, p7⟩
      · have hmem' : url ∈ (rest.filter (·.enabled)).map (·.url) := by
          simp only [List.filter_cons, he, if_true, List.map_cons, List.mem_cons] at hmem
          exact hmem.resolve_left (fun h => hu h.symm)
        exact ih (buildStep now q e) url (buildStep_health_none now q e url hu hl) hmem'
    · simp only [Bool.not_eq_true] at he
      rw [buildStep_disabled now q e he]
      have hmem' : url ∈ (rest.filter (·.enabled)).map (·.url) := by
        simpa [List.filter_cons, he] using hmem
      exact ih q url hl hmem'

theorem buildStep_stats_none (now : Nat) (q : ProxyServer) (e : UpstreamProxyConfig)
    (url : String) (hne : e.url ≠ url) (hl : mapLookup q.stats.upstreamMetrics url = none) :
    mapLookup (buildStep now q e).stats.upstreamMetrics url = none := by
  unfold buildStep
  by_cases he : e.enabled = true
  · simp only [he, if_true, ite_true]
    cases hx : mapLookup q.upstreamHealth e.url <;>
      · cases hs : mapLookup q.stats.upstreamMetrics e.url with
        | none =>
          show mapLookup (q.stats.upstreamMetrics ++
            [(e.url, initialMetric e.url e.tag now)]) url = none
          rw [mapLookup_append_none _ hl, mapLookup_cons, if_neg hne, mapLookup_nil]
        | some mw =>
          show mapLookup (mapUpdate q.stats.upstreamMetrics e.url
            (fun m => { m with tag := e.tag })) url = none
          rw [mapLookup_mapUpdate, if_neg (fun h => hne h.symm), hl]
  · simp only [Bool.not_eq_true] at he
    simp only [he, Bool.false_eq_true, if_false, ite_false]
    exact hl

theorem buildStep_stats_created (now : Nat) (q : ProxyServer) (e : UpstreamProxyConfig)
    (he : e.enabled = true) (hl : mapLookup q.stats.upstreamMetrics e.url = none) :
    mapLookup (buildStep now q e).stats.upstreamMetrics e.url =
      some (initialMetric e.url e.tag now) := by
  unfold buildStep
  simp only [he, if_true, ite_true]
  cases hx : mapLookup q.upstreamHealth e.url <;>
    · rw [show mapLookup q.stats.upstreamMetrics e.url = none from hl]
      show mapLookup (q.stats.upstreamMetrics ++ [(e.url, initialMetric e.url e.tag now)]) e.url =
        some (initialMetric e.url e.tag now)
      rw [mapLookup_append_none _ hl, mapLookup_cons, if_pos rfl]

theorem buildFold_stats_created (entries : List UpstreamProxyConfig) (now : Nat) :
    ∀ (q : ProxyServer) (url : String),
    mapLookup q.stats.upstreamMetrics url = none →
    url ∈ (entries.filter (·.enabled)).map (·.url) →
    ∃ m, mapLookup (entries.foldl (buildStep now) q).stats.upstreamMetrics url = some m ∧
      m.totalRequests = 0 ∧ m.successRequests = 0 ∧ m.failedRequests = 0 ∧
      m.totalLatency = 0 ∧ m.avgLatency = 0 := by
  induction entries with
  | nil => intro q url _ hmem; simp at hmem
  | cons e rest ih =>
    intro q url hl hmem
    rw [List.foldl_cons]
    by_cases he : e.enabled = true
    · by_cases hu : e.url = url
      · subst hu
        have hc := buildStep_stats_created now q e he hl
        obtain ⟨m₂, hl₂, p1, p2, p3, p4, p5, p6, p7⟩ :=
          buildFold_stats_preserved rest now (buildStep now q e) e.url
            (initialMetric e.url e.tag now) hc
        exact ⟨m₂, hl₂, p1, p2, p3, p4, p5⟩
      · have hmem' : url ∈ (rest.filter (·.enabled)).map (·.url) := by
          simp only [List.filter_cons, he, if_true, List.map_cons, List.mem_cons] at hmem
          exact hmem.resolve_left (fun h => hu h.symm)
        exact ih (buildStep now q e) url (buildStep_stats_none now q e url hu hl) hmem'
    · simp only [Bool.not_eq_true] at he
      rw [buildStep_disabled now q e he]
      have hmem' : url ∈ (rest.filter (·.enabled)).map (·.url) := by
        simpa [List.filter_cons, he] using hmem
      exact ih q url hl hmem'

end Netdrift

namespace Netdrift

theorem buildStep_frame (now : Nat) (q : ProxyServer) (e : UpstreamProxyConfig) :
    (buildStep now q e).upstreams =
      q.upstreams ++ (if e.enabled then [e.url] else []) ∧
    (buildStep now q e).weightedUpstreams.map (·.url) =
      q.weightedUpstreams.map (·.url) ++ (if e.enabled then [e.url] else []) ∧
    (buildStep now q e).currentIdx = q.currentIdx ∧
    (buildStep now q e).config = q.config ∧
    (buildStep now q e).configModTime = q.configModTime := by
  unfold buildStep
  by_cases he : e.enabled = true
  · simp only [he, if_true, ite_true]
    cases hx : mapLookup q.upstreamHealth e.url <;>
      cases hs : mapLookup q.stats.upstreamMetrics e.url <;>
        · refine ⟨?_, ?_, ?_, ?_, ?_⟩ <;> first | trivial | simp
  · simp only [Bool.not_eq_true] at he
    simp only [he, Bool.false_eq_true, if_false, ite_false]
    refine ⟨?_, ?_, ?_, ?_, ?_⟩ <;> first | trivial | simp

theorem buildFold_frame (entries : List UpstreamProxyConfig) (now : Nat) :
    ∀ q : ProxyServer,
    (entries.foldl (buildStep now) q).upstreams =
      q.upstreams ++ (entries.filter (·.enabled)).map (·.url) ∧
    (entries.foldl (buildStep now) q).weightedUpstreams.map (·.url) =
      q.weightedUpstreams.map (·.url) ++ (entries.filter (·.enabled)).map (·.url) ∧
    (entries.foldl (buildStep now) q).currentIdx = q.currentIdx ∧
    (entries.foldl (buildStep now) q).config = q.config ∧
    (entries.foldl (buildStep now) q).configModTime = q.configModTime := by
  induction entries with
  | nil => exact fun q => ⟨by simp, by simp, rfl, rfl, rfl⟩
  | cons e rest ih =>
    intro q
    obtain ⟨s1, s2, s3, s4, s5⟩ := buildStep_frame now q e
    obtain ⟨i1, i2, i3, i4, i5⟩ := ih (buildStep now q e)
    rw [List.foldl_cons]
    by_cases he : e.enabled = true
    · refine ⟨?_, ?_, by rw [i3, s3], by rw [i4, s4], by rw [i5, s5]⟩
      · rw [i1, s1, List.filter_cons, if_pos he, if_pos he]
        simp
      · rw [i2, s2, List.filter_cons, if_pos he, if_pos he]
        simp
    · simp only [Bool.not_eq_true] at he
      refine ⟨?_, ?_, by rw [i3, s3], by rw [i4, s4], by rw [i5, s5]⟩
      · rw [i1, s1, List.filter_cons, if_neg (by simp [he]), if_neg (by simp [he])]
        simp
      · rw [i2, s2, List.filter_cons, if_neg (by simp [he]), if_neg (by simp [he])]
        simp

end Netdrift

namespace Netdrift


/-- **C8.**  Config reload (`reloadConfig` with a newer mtime and a
successfully parsed new configuration): every existing health entry keeps
all its state fields, every existing per-upstream stats entry keeps all
its counters and latency fields, URLs enabled in the new configuration
with no prior entry get the default health record (counts 0, healthy,
thresholds 3/1) and zeroed stats, the selectable upstream list becomes
exactly the enabled URLs of the new configuration (so removed upstreams
are no longer selectable), the selection cursor is reset to 0, and on a
parse failure the server state is unchanged. -/
theorem c8_reload_preserves_state (ps : ProxyServer) (modTime : Nat) (newConfig : Config)
    (now : Nat) (hmod : ps.configModTime < modTime) :
    (∀ url h, mapLookup ps.upstreamHealth url = some h →
      ∃ h₂, mapLookup (reloadConfig ps (some modTime) (some newConfig) now).upstreamHealth url =
          some h₂ ∧
        h₂.failureCount = h.failureCount ∧ h₂.successCount = h.successCount ∧
        h₂.lastFailure = h.lastFailure ∧ h₂.lastSuccess = h.lastSuccess ∧
        h₂.isHealthy = h.isHealthy ∧ h₂.failureThreshold = h.failureThreshold ∧
        h₂.recoveryThreshold = h.recoveryThreshold) ∧
    (∀ url m, mapLookup ps.stats.upstreamMetrics url = some m →
      ∃ m₂, mapLookup
          (reloadConfig ps (some modTime) (some newConfig) now).stats.upstreamMetrics url =
          some m₂ ∧
        m₂.totalRequests = m.totalRequests ∧ m₂.successRequests = m.successRequests ∧
        m₂.failedRequests = m.failedRequests ∧ m₂.totalLatency = m.totalLatency ∧
        m₂.avgLatency = m.avgLatency ∧ m₂.currentConnections = m.currentConnections ∧
        m₂.lastRequest = m.lastRequest) ∧
    (∀ url, mapLookup ps.upstreamHealth url = none → url ∈ enabledURLs newConfig →
      ∃ h, mapLookup (reloadConfig ps (some modTime) (some newConfig) now).upstreamHealth url =
          some h ∧
        h.failureCount = 0 ∧ h.successCount = 0 ∧ h.isHealthy = true ∧
        h.failureThreshold = 3 ∧ h.recoveryThreshold = 1) ∧
    (∀ url, mapLookup ps.stats.upstreamMetrics url = none → url ∈ enabledURLs newConfig →
      ∃ m, mapLookup
          (reloadConfig ps (some modTime) (some newConfig) now).stats.upstreamMetrics url =
          some m ∧
        m.totalRequests = 0 ∧ m.successRequests = 0 ∧ m.failedRequests = 0 ∧
        m.totalLatency = 0 ∧ m.avgLatency = 0) ∧
    (reloadConfig ps (some modTime) (some newConfig) now).upstreams = enabledURLs newConfig ∧
    (∀ url, url ∉ enabledURLs newConfig → url ≠ "" →
      (getNextUpstream (reloadConfig ps (some modTime) (some newConfig) now)).1 ≠ url) ∧
    (reloadConfig ps (some modTime) (some newConfig) now).currentIdx = 0 ∧
    reloadConfig ps (some modTime) none now = ps := by
  have hred : reloadConfig ps (some modTime) (some newConfig) now =
      newConfig.upstreamProxies.foldl (buildStep now) { ps with config := newConfig, configModTime := modTime, currentIdx := 0, upstreams := [], weightedUpstreams := [], totalWeight := 0 } := by
    show (if ¬ ps.configModTime < modTime then ps
      else newConfig.upstreamProxies.foldl (buildStep now) { ps with config := newConfig, configModTime := modTime, currentIdx := 0, upstreams := [], weightedUpstreams := [], totalWeight := 0 }) = _
    rw [if_neg (not_not_intro hmod)]
  obtain ⟨f1, f2, f3, f4, f5⟩ := buildFold_frame newConfig.upstreamProxies now
    { ps with config := newConfig, configModTime := modTime, currentIdx := 0, upstreams := [], weightedUpstreams := [], totalWeight := 0 }
  refine ⟨?_, ?_, ?_, ?_, ?_, ?_, ?_, ?_⟩
  · intro url h hl
    rw [hred]
    exact buildFold_health_preserved newConfig.upstreamProxies now _ url h hl
  · intro url m hl
    rw [hred]
    exact buildFold_stats_preserved newConfig.upstreamProxies now _ url m hl
  · intro url hl hmem
    rw [hred]
    exact buildFold_health_created newConfig.upstreamProxies now _ url hl hmem
  · intro url hl hmem
    rw [hred]
    exact buildFold_stats_created newConfig.upstreamProxies now _ url hl hmem
  · rw [hred, f1]
    simp [enabledURLs]
  · intro url hnot hne0
    rw [hred]
    by_cases hni : (newConfig.upstreamProxies.foldl (buildStep now) { ps with config := newConfig, configModTime := modTime, currentIdx := 0, upstreams := [], weightedUpstreams := [], totalWeight := 0 }).weightedUpstreams.isEmpty = true
    · unfold getNextUpstream
      rw [if_pos hni]
      exact fun h => hne0 h.symm
    · have hub : (newConfig.upstreamProxies.foldl (buildStep now) { ps with config := newConfig, configModTime := modTime, currentIdx := 0, upstreams := [], weightedUpstreams := [], totalWeight := 0 }).upstreams = ((newConfig.upstreamProxies.foldl (buildStep now) { ps with config := newConfig, configModTime := modTime, currentIdx := 0, upstreams := [], weightedUpstreams := [], totalWeight := 0 }).weightedUpstreams.map (·.url)) := by
        rw [f1, f2]
        rfl
      have hmem := getNextUpstream_mem _ hub hni
      rw [f1] at hmem
      simp only [List.nil_append] at hmem
      intro heq
      rw [heq] at hmem
      exact hnot hmem
  · rw [hred, f3]
  · show (if ¬ ps.configModTime < modTime then ps else ps) = ps
    exact ite_self ps

end Netdrift

namespace Netdrift

/-- Witness for C8: the two-upstream reload scenario.  `reloadOldState`
carries live counters (one failed request and one recorded health failure
on `http://a:1`); reloading to `reloadNewConfig` (b removed, c added)
keeps a's counters, creates c with defaults, makes exactly a and c
selectable, resets the cursor, and a parse failure leaves the state
untouched. -/
theorem c8_reload_preserves_state_witness :
    reloadOldState.configModTime < 1 ∧
    (∃ h₂, mapLookup
        (reloadConfig reloadOldState (some 1) (some reloadNewConfig) 0).upstreamHealth
        "http://a:1" = some h₂ ∧ h₂.failureCount = 1 ∧ h₂.isHealthy = true) ∧
    (∃ m₂, mapLookup
        (reloadConfig reloadOldState (some 1) (some reloadNewConfig) 0).stats.upstreamMetrics
        "http://a:1" = some m₂ ∧ m₂.totalRequests = 1 ∧ m₂.failedRequests = 1) ∧
    (∃ h₃, mapLookup
        (reloadConfig reloadOldState (some 1) (some reloadNewConfig) 0).upstreamHealth
        "http://c:1" = some h₃ ∧ h₃.failureCount = 0 ∧ h₃.failureThreshold = 3 ∧
        h₃.recoveryThreshold = 1) ∧
    (reloadConfig reloadOldState (some 1) (some reloadNewConfig) 0).upstreams =
      ["http://a:1", "http://c:1"] ∧
    (getNextUpstream (reloadConfig reloadOldState (some 1) (some reloadNewConfig) 0)).1 ≠
      "http://b:1" ∧
    (reloadConfig reloadOldState (some 1) (some reloadNewConfig) 0).currentIdx = 0 ∧
    reloadConfig reloadOldState (some 1) none 0 = reloadOldState := by
  obtain ⟨ha, hb, hc, hd, he, hf, hg, hh⟩ :=
    c8_reload_preserves_state reloadOldState 1 reloadNewConfig 0 (by decide)
  refine ⟨by decide, ?_, ?_, ?_, ?_, ?_, hg, hh⟩
  · obtain ⟨h₂, hl₂, p1, p2, p3, p4, p5, p6, p7⟩ :=
      ha "http://a:1" { tag := "", failureCount := 1, successCount := 0, lastFailure := 0,
                        lastSuccess := 0, isHealthy := true, failureThreshold := 3,
                        recoveryThreshold := 1 } (by decide)
    exact ⟨h₂, hl₂, by rw [p1], by rw [p5]⟩
  · obtain ⟨m₂, hl₂, p1, p2, p3, p4, p5, p6, p7⟩ :=
      hb "http://a:1" { url := "http://a:1", tag := "", index := 0, totalRequests := 1,
                        successRequests := 0, failedRequests := 1, totalLatency := 0,
                        avgLatency := 0, currentConnections := 0, lastRequest := 0 } (by decide)
    exact ⟨m₂, hl₂, by rw [p1], by rw [p3]⟩
  · obtain ⟨h₃, hl₃, q1, q2, q3, q4, q5⟩ := hc "http://c:1" (by decide) (by decide)
    exact ⟨h₃, hl₃, q1, q4, q5⟩
  · rw [he]
    decide
  · exact hf "http://b:1" (by decide) (by decide)

end Netdrift

namespace Netdrift

/-- Witness for C7: userinfo `user%40x:p%40w` on host `h:1`.  The
registry derives `Basic dXNlckB4OnBAdw==`, the base64 encoding of the
decoded credentials `user@x:p@w`. -/
theorem c7_proxy_authorization_roundtrip_witness :
    ('@' ∉ "user%40x:p%40w".toList) ∧ ('@' ∉ "h:1".toList) ∧
    ("https://".toList.isPrefixOf ("user%40x:p%40w".toList ++ '@' :: "h:1".toList) = false) ∧
    parseUpstreamAuth
        ("http://".toList ++ ("user%40x:p%40w".toList ++ '@' :: "h:1".toList)).asString =
      Except.ok ("h:1".toList.asString,
        ("Basic ".toList ++ base64Encode (replace40 "user%40x:p%40w".toList)).asString) ∧
    base64Encode (replace40 "user%40x:p%40w".toList) = "dXNlckB4OnBAdw==".toList := by
  refine ⟨by decide, by decide, by decide, ?_, by decide⟩
  exact (c7_proxy_authorization_roundtrip "user%40x:p%40w".toList "h:1".toList
    "example.com:443".toList (by decide) (by decide) (by decide)).1

end Netdrift
